import Mathlib

/-! amp.dev utilities: orphan-file bootstrap and filter-state handler

A shallow embedding of two scripts of the repository:

* `platform/lib/bootstrap-orphans.js` : `bootstrapOrphans`, which copies two
  fallback files to their destinations unless they are already there;
* `netlify/functions/filter-state.js` : `handler`, which normalises three query
  parameters and returns them as JSON.

The Node.js `fs` and `path` modules are not part of the repository; the part of
their behaviour the scripts rely on is modelled in the first section. A file system
is a map from paths to files and directories, together with the failures of the
environment: the paths that cannot be resolved (on which `stat`, and so `existsSync`,
fails) and the errors that `mkdirSync` and `copyFileSync` raise.
-/

namespace AmpDev

/-! ## Paths (Node `path`, POSIX flavour, absolute and normalised) -/

/-- An absolute, normalised path: the list of its segments below the root. -/
abbrev PathName := List String

/-- One step of `path.join`: append a relative segment and normalise. -/
def joinSeg (p : PathName) (seg : String) : PathName :=
  if seg = ".." then p.dropLast
  else if seg = "." ∨ seg = "" then p
  else p ++ [seg]

/-- The call `path.join(base, rel)`, with `rel` given as its `/`-separated segments. -/
def pathJoin (base : PathName) (rel : List String) : PathName :=
  rel.foldl joinSeg base

/-- The call `path.dirname(p)`. -/
def pathDirname (p : PathName) : PathName := p.dropLast

/-- The call `path.basename(p)`. -/
def pathBasename (p : PathName) : String := p.getLast?.getD ""

/-! ## File system (Node `fs`) -/

/-- What a path names: a regular file with its content, or a directory. -/
inductive Node where
  | file (content : String)
  | dir
  deriving DecidableEq, Repr

/-- A file-system state: what, if anything, each path names. -/
abbrev FS := PathName → Option Node

/-- Whether an entry is a regular file. -/
def isFile : Option Node → Bool
  | some (Node.file _) => true
  | _ => false

/-- Environment-dependent failures (permissions, disk errors): for each call, the
message of the error it raises, if any. They are fixed for a given environment.
`stat p` is the error met when the path `p` cannot be resolved (for instance a
directory on the way to it cannot be searched): `stat` fails on such a path, and so
does every other call on it. -/
structure Faults where
  stat : PathName → Option String
  mkdir : PathName → Option String
  copy : PathName → PathName → Option String

/-- The environment in which no call fails for an external reason. -/
def noFaults : Faults := ⟨fun _ => none, fun _ => none, fun _ _ => none⟩

/-- The call `fs.existsSync(p)`: whether `stat` succeeds on `p`. It never throws: it
answers false when the path names nothing and also when `stat` fails on it. -/
def existsSync (io : Faults) (fs : FS) (p : PathName) : Bool :=
  (io.stat p).isNone && (fs p).isSome

/-- The state after a successful `fs.mkdirSync(d, {recursive: true})`: every
missing ancestor of `d`, and `d` itself, becomes a directory. -/
def withDirs (fs : FS) (d : PathName) : FS :=
  fun q => if q.isPrefixOf d && (fs q).isNone then some Node.dir else fs q

/-- The call `fs.mkdirSync(d, {recursive: true})`: the new state, or the message of
the error thrown. It throws when the path cannot be resolved, when the environment
refuses, or when `d` or one of its ancestors is a regular file; a failed call leaves
the state as it was. -/
def mkdirSync (io : Faults) (fs : FS) (d : PathName) : Except String FS :=
  match io.stat d with
  | some msg => Except.error msg
  | none =>
    match io.mkdir d with
    | some msg => Except.error msg
    | none =>
      if d.inits.any (fun q => isFile (fs q)) then
        Except.error "ENOTDIR: not a directory, mkdir"
      else Except.ok (withDirs fs d)

/-- The state after a successful copy of content `c` to `dest`. -/
def withFile (fs : FS) (dest : PathName) (c : String) : FS :=
  fun q => if q = dest then some (Node.file c) else fs q

/-- The call `fs.copyFileSync(src, dest)` (default mode: an existing destination
file is overwritten): the new state, or the message of the error thrown. A failed
call leaves the state as it was. -/
def copyFileSync (io : Faults) (fs : FS) (src dest : PathName) : Except String FS :=
  match io.stat src with
  | some msg => Except.error msg
  | none =>
  match io.stat dest with
  | some msg => Except.error msg
  | none =>
  match io.copy src dest with
  | some msg => Except.error msg
  | none =>
    match fs src with
    | none => Except.error "ENOENT: no such file or directory, copyfile"
    | some Node.dir => Except.error "EISDIR: illegal operation on a directory, copyfile"
    | some (Node.file c) =>
      match fs (pathDirname dest) with
      | none => Except.error "ENOENT: no such file or directory, copyfile"
      | some (Node.file _) => Except.error "ENOTDIR: not a directory, copyfile"
      | some Node.dir =>
        match fs dest with
        | some Node.dir => Except.error "EISDIR: illegal operation on a directory, copyfile"
        | _ => Except.ok (withFile fs dest c)

/-! ## Logging (`signale`) -/

/-- The severity methods of the logger that the script calls. -/
inductive Level where
  | debug | info | success | warn | error | complete
  deriving DecidableEq, Repr

/-- One logged line. -/
structure LogEntry where
  level : Level
  text : String
  deriving DecidableEq, Repr

/-! ## `bootstrapOrphans` -/

/-- An element of `fileMappings`. -/
structure Mapping where
  src : PathName
  dest : PathName
  description : String
  deriving DecidableEq, Repr

/-- The constant `orphansDir`, for the script directory `scriptDir` (`__dirname`). -/
def orphansDir (scriptDir : PathName) : PathName :=
  pathJoin scriptDir ["..", "..", "_orphans"]

/-- The constant `fileMappings`. -/
def fileMappings (scriptDir : PathName) : List Mapping :=
  [ { src := pathJoin (orphansDir scriptDir) ["componentSamples.json"],
      dest := pathJoin scriptDir
        ["..", "..", "pages", "shared", "data", "componentSamples.json"],
      description := "Component samples mapping" },
    { src := pathJoin (orphansDir scriptDir) ["samples.json"],
      dest := pathJoin scriptDir
        ["..", "..", "examples", "static", "samples", "samples.json"],
      description := "Samples metadata" } ]

/-- The observable state of a run: the file system, the lines logged so far, and the
two local counters. -/
structure RunState where
  fs : FS
  log : List LogEntry
  copiedCount : Nat
  skippedCount : Nat

/-- Append one line to the log. -/
def RunState.emit (st : RunState) (lvl : Level) (text : String) : RunState :=
  { st with log := st.log ++ [⟨lvl, text⟩] }

/-- The text logged by the `catch` block. -/
def failText (m : Mapping) (msg : String) : String :=
  "Failed to copy " ++ m.description ++ ": " ++ msg

/-- Lines 66 to 70 of the `try` block: create the destination directory when it is
not there. -/
def ensureDir (io : Faults) (fs : FS) (destDir : PathName) : Except String FS :=
  if !existsSync io fs destDir then mkdirSync io fs destDir else Except.ok fs

/-- The part of the `try` block after the two guards (the directory check, `mkdirSync`
and `copyFileSync`): the state reached, and the message of the error thrown, if any. -/
def copyStep (io : Faults) (m : Mapping) (fs : FS) : FS × Option String :=
  match ensureDir io fs (pathDirname m.dest) with
  | Except.error msg => (fs, some msg)
  | Except.ok fs1 =>
    match copyFileSync io fs1 m.src m.dest with
    | Except.error msg => (fs1, some msg)
    | Except.ok fs2 => (fs2, none)

/-- One iteration of the `for` loop: the `try` block and its `catch`. -/
def processMapping (io : Faults) (m : Mapping) (st : RunState) : RunState :=
  if !existsSync io st.fs m.src then
    st.emit Level.warn ("Orphan file not found: " ++ pathBasename m.src)
  else if existsSync io st.fs m.dest then
    { st.emit Level.debug ("Skipping " ++ m.description ++ ": file already exists") with
      skippedCount := st.skippedCount + 1 }
  else
    match copyStep io m st.fs with
    | (fs1, some msg) => { st with fs := fs1 }.emit Level.error (failText m msg)
    | (fs2, none) =>
      { { st with fs := fs2 }.emit Level.success ("Copied " ++ m.description) with
        copiedCount := st.copiedCount + 1 }

/-- The `for` loop over the mappings, in order. -/
def processAll (io : Faults) (ms : List Mapping) (st : RunState) : RunState :=
  ms.foldl (fun s m => processMapping io m s) st

/-- The three `if` statements after the loop. -/
def summary (copiedCount skippedCount : Nat) : List LogEntry :=
  (if copiedCount > 0 then
    [⟨Level.complete, "Bootstrapped " ++ toString copiedCount ++ " orphan file(s)"⟩]
   else []) ++
  (if skippedCount > 0 then
    [⟨Level.info, "Skipped " ++ toString skippedCount ++ " existing file(s)"⟩]
   else []) ++
  (if copiedCount = 0 ∧ skippedCount = 0 then
    [⟨Level.info, "No orphan files needed to be bootstrapped"⟩]
   else [])

/-- The state in which the loop starts: the opening line logged, both counters zero. -/
def startState (fs : FS) : RunState :=
  { fs := fs,
    log := [⟨Level.info, "Bootstrapping orphan files for development environment..."⟩],
    copiedCount := 0,
    skippedCount := 0 }

/-- The body of `bootstrapOrphans` for a given list of mappings. -/
def bootstrapWith (io : Faults) (ms : List Mapping) (fs : FS) : RunState :=
  let st := processAll io ms (startState fs)
  { st with log := st.log ++ summary st.copiedCount st.skippedCount }

/-- The function `bootstrapOrphans`, run from script directory `scriptDir` in file
system `fs`. -/
def bootstrapOrphans (io : Faults) (scriptDir : PathName) (fs : FS) : RunState :=
  bootstrapWith io (fileMappings scriptDir) fs

/-- A file system given by a finite table. -/
def fsOf (table : List (PathName × Node)) : FS := fun p => table.lookup p

/-- The state before the `i`-th mapping (counting from 0) is processed. -/
def stateBefore (io : Faults) (ms : List Mapping) (fs : FS) (i : Nat) : RunState :=
  processAll io (ms.take i) (startState fs)

/-- The number of logged lines of a given severity. -/
def countLevel (lvl : Level) (log : List LogEntry) : Nat :=
  (log.filter (fun e => e.level = lvl)).length

/-- The effect of one iteration seen from a fresh state: its log is the line the
iteration adds, its counters are the increments. -/
def stepOn (io : Faults) (m : Mapping) (fs : FS) : RunState :=
  processMapping io m ⟨fs, [], 0, 0⟩

/-- The file-system facts that decide how mapping `m` is processed are the same in
both states. -/
def Agree (m : Mapping) (fs fs' : FS) : Prop :=
  fs' m.src = fs m.src ∧ fs' m.dest = fs m.dest ∧
  fs' (pathDirname m.dest) = fs (pathDirname m.dest) ∧
  ∀ q, q <+: pathDirname m.dest → isFile (fs' q) = isFile (fs q)

/-- A path that processing `a` may create: its destination, its destination
directory, or an ancestor of that directory. -/
def Touched (a : Mapping) (q : PathName) : Prop :=
  q = a.dest ∨ q <+: pathDirname a.dest

/-- No path that processing `a` may create is one that processing `b` looks at. -/
def Independent (a b : Mapping) : Prop :=
  ¬ Touched a b.src ∧ ¬ Touched a b.dest ∧ ¬ Touched a (pathDirname b.dest) ∧
  ¬ a.dest <+: pathDirname b.dest

/-- The project root: two levels above the script directory. -/
def projectRoot (scriptDir : PathName) : PathName := scriptDir.dropLast.dropLast

/-- The first element of `fileMappings`, for project root `root`. -/
def componentSamplesMapping (root : PathName) : Mapping :=
  { src := root ++ ["_orphans", "componentSamples.json"],
    dest := root ++ ["pages", "shared", "data", "componentSamples.json"],
    description := "Component samples mapping" }

/-- The second element of `fileMappings`, for project root `root`. -/
def samplesMapping (root : PathName) : Mapping :=
  { src := root ++ ["_orphans", "samples.json"],
    dest := root ++ ["examples", "static", "samples", "samples.json"],
    description := "Samples metadata" }

/-- The line logged when the destination is already there. -/
def skipLine (m : Mapping) : LogEntry :=
  ⟨Level.debug, "Skipping " ++ m.description ++ ": file already exists"⟩

/-- The effect of the first iteration of `bootstrapOrphans`. -/
def firstStep (io : Faults) (scriptDir : PathName) (fs : FS) : RunState :=
  stepOn io (componentSamplesMapping (projectRoot scriptDir)) fs

/-- The effect of the second iteration of `bootstrapOrphans`. -/
def secondStep (io : Faults) (scriptDir : PathName) (fs : FS) : RunState :=
  stepOn io (samplesMapping (projectRoot scriptDir)) (firstStep io scriptDir fs).fs

/-- The opening line of the log. -/
def openingLine : LogEntry :=
  ⟨Level.info, "Bootstrapping orphan files for development environment..."⟩

/-! ## The `filter-state` handler -/

/-- The two JavaScript string methods the handler calls; their Unicode case and
white-space tables are not part of the repository. -/
structure StringOps where
  toLowerCase : String → String
  trim : String → String

/-- A model of the two methods on ASCII text: letters `A` to `Z` are lowered, and
blanks, tabs and line breaks are trimmed. -/
def asciiOps : StringOps :=
  { toLowerCase := fun s => String.mk (s.data.map Char.toLower),
    trim := fun s =>
      String.mk ((s.data.dropWhile Char.isWhitespace).reverse.dropWhile
        Char.isWhitespace).reverse }

/-- The event given to the handler: `queryStringParameters` is an object with string
values, or is `null` or `undefined` (`none`). -/
structure Event where
  queryStringParameters : Option (List (String × String))

/-- The property access `params[name]`; `none` stands for `undefined`. -/
def getParam (params : List (String × String)) (name : String) : Option String :=
  params.lookup name

/-- The expression `value || fallback` for a value that is a string or `undefined`:
the fallback is taken when the value is `undefined` or the empty string. -/
def orDefault (value : Option String) (fallback : String) : String :=
  match value with
  | some v => if v = "" then fallback else v
  | none => fallback

/-- The object `response` built by the handler. -/
structure FilterState where
  category : String
  format : String
  level : String
  deriving DecidableEq, Repr

/-- A lower-case hexadecimal digit. -/
def hexDigit (n : Nat) : Char :=
  if n < 10 then Char.ofNat (48 + n) else Char.ofNat (87 + n)

/-- How `JSON.stringify` writes one character of a string. -/
def quoteJSONChar (c : Char) : List Char :=
  let n := c.toNat
  if n = 8 then [Char.ofNat 92, Char.ofNat 98]
  else if n = 9 then [Char.ofNat 92, Char.ofNat 116]
  else if n = 10 then [Char.ofNat 92, Char.ofNat 110]
  else if n = 12 then [Char.ofNat 92, Char.ofNat 102]
  else if n = 13 then [Char.ofNat 92, Char.ofNat 114]
  else if n = 34 then [Char.ofNat 92, Char.ofNat 34]
  else if n = 92 then [Char.ofNat 92, Char.ofNat 92]
  else if n < 32 then
    [Char.ofNat 92, Char.ofNat 117, Char.ofNat 48, Char.ofNat 48, hexDigit (n / 16),
      hexDigit (n % 16)]
  else [c]

/-- How `JSON.stringify` writes a string. -/
def quoteJSONString (s : String) : String :=
  String.mk ([Char.ofNat 34] ++ s.data.flatMap quoteJSONChar ++ [Char.ofNat 34])

/-- The call `JSON.stringify(response)`: the three properties in insertion order. -/
def jsonStringify (r : FilterState) : String :=
  "\x7b\"category\":" ++ quoteJSONString r.category ++
  ",\"format\":" ++ quoteJSONString r.format ++
  ",\"level\":" ++ quoteJSONString r.level ++ "\x7d"

/-- The value of a hexadecimal digit. -/
def hexValue (c : Char) : Option Nat :=
  let n := c.toNat
  if 48 ≤ n ∧ n ≤ 57 then some (n - 48)
  else if 97 ≤ n ∧ n ≤ 102 then some (n - 87)
  else if 65 ≤ n ∧ n ≤ 70 then some (n - 55)
  else none

/-- The character that a backslash followed by `e` stands for in a JSON string. -/
def unescapeJSONChar (e : Char) : Option Char :=
  let n := e.toNat
  if n = 98 then some (Char.ofNat 8)
  else if n = 116 then some (Char.ofNat 9)
  else if n = 110 then some (Char.ofNat 10)
  else if n = 102 then some (Char.ofNat 12)
  else if n = 114 then some (Char.ofNat 13)
  else if n = 34 then some (Char.ofNat 34)
  else if n = 92 then some (Char.ofNat 92)
  else if n = 47 then some (Char.ofNat 47)
  else none

/-- Where the reader of a JSON string is: in plain text, after a backslash, or in the
four hexadecimal digits of a `\\u` escape (with how many were read and their value). -/
inductive ReadMode where
  | plain
  | escape
  | hex (count value : Nat)

/-- Read a JSON string after its opening quote (RFC 8259, escapes of one code unit):
the text read, given the text read so far in reverse, and what follows the closing
quote. -/
def readJSONString : ReadMode → List Char → List Char → Option (List Char × List Char)
  | _, _, [] => none
  | ReadMode.plain, acc, c :: cs =>
    if c.toNat = 34 then some (acc.reverse, cs)
    else if c.toNat = 92 then readJSONString ReadMode.escape acc cs
    else if c.toNat < 32 then none
    else readJSONString ReadMode.plain (c :: acc) cs
  | ReadMode.escape, acc, e :: cs =>
    if e.toNat = 117 then readJSONString (ReadMode.hex 0 0) acc cs
    else
      match unescapeJSONChar e with
      | some ch => readJSONString ReadMode.plain (ch :: acc) cs
      | none => none
  | ReadMode.hex count value, acc, h :: cs =>
    match hexValue h with
    | none => none
    | some d =>
      if count = 3 then readJSONString ReadMode.plain (Char.ofNat (16 * value + d) :: acc) cs
      else readJSONString (ReadMode.hex (count + 1) (16 * value + d)) acc cs

/-- Take a literal off the front of the input, if it is there. -/
def expectLiteral (lit : String) (input : List Char) : Option (List Char) :=
  if lit.data.isPrefixOf input then some (input.drop lit.data.length) else none

/-- Read a quoted JSON string off the front of the input. -/
def readQuoted (input : List Char) : Option (String × List Char) :=
  match input with
  | [] => none
  | c :: cs =>
    if c.toNat = 34 then
      match readJSONString ReadMode.plain [] cs with
      | some (s, rest) => some (String.mk s, rest)
      | none => none
    else none

/-- Read the JSON text of an object with exactly the string properties `category`,
`format` and `level`, in this order and without white space. -/
def parseFilterState (body : String) : Option FilterState :=
  (expectLiteral "\x7b\"category\":" body.data).bind fun r0 =>
  (readQuoted r0).bind fun p1 =>
  (expectLiteral ",\"format\":" p1.2).bind fun r2 =>
  (readQuoted r2).bind fun p2 =>
  (expectLiteral ",\"level\":" p2.2).bind fun r4 =>
  (readQuoted r4).bind fun p3 =>
  if p3.2 = "\x7d".data then some ⟨p1.1, p2.1, p3.1⟩ else none

/-- The value the handler returns (the promise it returns resolves to it). -/
structure Response where
  statusCode : Nat
  headers : List (String × String)
  body : String
  deriving DecidableEq, Repr

/-- The function `handler`. -/
def handler (ops : StringOps) (event : Event) : Response :=
  let params := event.queryStringParameters.getD []
  let response : FilterState :=
    { category := ops.trim (ops.toLowerCase (orDefault (getParam params "category") "")),
      format := ops.trim (ops.toLowerCase (orDefault (getParam params "format") "websites")),
      level := ops.trim (ops.toLowerCase (orDefault (getParam params "level") "beginner")) }
  { statusCode := 200,
    headers :=
      [("Content-Type", "application/json"),
       ("Access-Control-Allow-Origin", "*"),
       ("Access-Control-Allow-Methods", "GET"),
       ("Cache-Control", "no-cache, no-store, must-revalidate")],
    body := jsonStringify response }

/-- What the handler is said to return for one parameter: the default when the
parameter is absent or the empty string, its lower-cased and trimmed value otherwise. -/
def normalizedParam (ops : StringOps) (event : Event) (name fallback : String) : String :=
  match event.queryStringParameters with
  | none => fallback
  | some params =>
    match params.lookup name with
    | none => fallback
    | some v => if v = "" then fallback else ops.trim (ops.toLowerCase v)

/-! ## Example states -/

/-- A project with both orphan files and neither destination. -/
def freshProject : FS :=
  fsOf [([], Node.dir), (["_orphans"], Node.dir),
    (["_orphans", "componentSamples.json"], Node.file "\x7b\"samples\":1\x7d"),
    (["_orphans", "samples.json"], Node.file "[]")]

/-- A project in which the first destination is there but its orphan file is not. -/
def builtProject : FS :=
  fsOf [([], Node.dir), (["_orphans"], Node.dir),
    (["_orphans", "samples.json"], Node.file "[]"),
    (["pages"], Node.dir), (["pages", "shared"], Node.dir),
    (["pages", "shared", "data"], Node.dir),
    (["pages", "shared", "data", "componentSamples.json"], Node.file "built")]

/-- A project in which both orphan files and both destinations are there. -/
def bootstrappedProject : FS :=
  withFile (withFile freshProject (componentSamplesMapping []).dest "old")
    (samplesMapping []).dest "old"

/-- A project with the first orphan file only, and no destination. -/
def scenarioProject : FS :=
  fsOf [([], Node.dir), (["_orphans"], Node.dir),
    (["_orphans", "componentSamples.json"], Node.file "\x7b\"x\":1\x7d")]

/-- An environment in which the directory `_orphans` cannot be searched: no path below
it can be resolved. -/
def unsearchableOrphans : Faults :=
  { stat := fun p =>
      if ["_orphans"].isPrefixOf p && p != ["_orphans"] then
        some "EACCES: permission denied, stat"
      else none,
    mkdir := fun _ => none,
    copy := fun _ _ => none }

/-- An environment in which the directory `pages/shared/data` cannot be searched: no
path below it can be resolved. -/
def unsearchableData : Faults :=
  { stat := fun p =>
      if ["pages", "shared", "data"].isPrefixOf p && p != ["pages", "shared", "data"] then
        some "EACCES: permission denied, copyfile"
      else none,
    mkdir := fun _ => none,
    copy := fun _ _ => none }

/-- An environment in which the first destination directory cannot be created. -/
def readOnlyPages : Faults :=
  { stat := fun _ => none,
    mkdir := fun d =>
      if d = ["pages", "shared", "data"] then some "EACCES: permission denied, mkdir"
      else none,
    copy := fun _ _ => none }

/-! ## Lemmas on the file-system model -/

theorem withDirs_of_some {fs : FS} {d q : PathName} {n : Node} (h : fs q = some n) :
    withDirs fs d q = some n := by
  simp [withDirs, h]

theorem withDirs_self_isSome (fs : FS) (d : PathName) : (withDirs fs d d).isSome = true := by
  unfold withDirs
  cases h : fs d <;> simp [h]

theorem withDirs_cases (fs : FS) (d q : PathName) :
    withDirs fs d q = fs q ∨
      (fs q = none ∧ q <+: d ∧ withDirs fs d q = some Node.dir) := by
  unfold withDirs
  by_cases h1 : q.isPrefixOf d = true
  · cases h2 : fs q
    · right; simp [h1, h2, List.isPrefixOf_iff_prefix.mp h1]
    · left; simp [h2]
  · left; simp [h1]

theorem withDirs_of_prefix_isFile (fs : FS) (d q : PathName) :
    isFile (withDirs fs d q) = isFile (fs q) := by
  rcases withDirs_cases fs d q with h | ⟨h0, _, h1⟩
  · rw [h]
  · rw [h0, h1]; rfl

theorem mkdirSync_ok {io : Faults} {fs fs1 : FS} {d : PathName}
    (h : mkdirSync io fs d = Except.ok fs1) : fs1 = withDirs fs d := by
  unfold mkdirSync at h
  split at h
  · cases h
  · split at h
    · cases h
    · split at h
      · cases h
      · cases h; rfl

theorem copyFileSync_ok {io : Faults} {fs fs2 : FS} {src dest : PathName}
    (h : copyFileSync io fs src dest = Except.ok fs2) :
    ∃ c, fs src = some (Node.file c) ∧ fs (pathDirname dest) = some Node.dir ∧
      fs2 = withFile fs dest c := by
  unfold copyFileSync at h
  split at h
  · cases h
  · split at h
    · cases h
    · split at h
      · cases h
      · split at h
        · cases h
        · cases h
        · rename_i c hsrc
          split at h
          · cases h
          · cases h
          · rename_i hdir
            split at h
            · cases h
            · cases h; exact ⟨c, hsrc, hdir, rfl⟩

/-- A copy that succeeds is one whose two paths can be resolved. -/
theorem copyFileSync_ok_stat {io : Faults} {fs fs2 : FS} {src dest : PathName}
    (h : copyFileSync io fs src dest = Except.ok fs2) :
    io.stat src = none ∧ io.stat dest = none := by
  unfold copyFileSync at h
  split at h
  · cases h
  · rename_i h1
    split at h
    · cases h
    · rename_i h2
      exact ⟨h1, h2⟩

theorem existsSync_true {io : Faults} {fs : FS} {p : PathName}
    (h : existsSync io fs p = true) : io.stat p = none ∧ (fs p).isSome = true := by
  simpa [existsSync] using h

theorem existsSync_of_none (io : Faults) {fs : FS} {p : PathName} (h : fs p = none) :
    existsSync io fs p = false := by
  simp [existsSync, h]

theorem existsSync_congr (io : Faults) {fs fs' : FS} {p : PathName} (h : fs' p = fs p) :
    existsSync io fs' p = existsSync io fs p := by
  simp [existsSync, h]

theorem mkdirSync_ok_stat {io : Faults} {fs fs1 : FS} {d : PathName}
    (h : mkdirSync io fs d = Except.ok fs1) : io.stat d = none := by
  unfold mkdirSync at h
  split at h
  · cases h
  · rename_i h1; exact h1

theorem absent_of_existsSync_false {io : Faults} {fs : FS} {p : PathName}
    (h : existsSync io fs p = false) (hst : io.stat p = none) : fs p = none := by
  simp only [existsSync, hst, Option.isNone_none, Bool.true_and] at h
  cases hq : fs p with
  | none => rfl
  | some n => rw [hq] at h; simp at h

theorem ensureDir_ok {io : Faults} {fs fs1 : FS} {d : PathName}
    (h : ensureDir io fs d = Except.ok fs1) :
    (fs1 = fs ∨ fs1 = withDirs fs d) ∧ existsSync io fs1 d = true := by
  unfold ensureDir at h
  by_cases he : existsSync io fs d = true
  · simp [he] at h
    subst h
    exact ⟨Or.inl rfl, he⟩
  · simp [he] at h
    have hst := mkdirSync_ok_stat h
    have := mkdirSync_ok h
    subst this
    refine ⟨Or.inr rfl, ?_⟩
    simp [existsSync, hst, withDirs_self_isSome fs d]

theorem copyStep_cases (io : Faults) (m : Mapping) (fs : FS) :
    (∃ msg, ensureDir io fs (pathDirname m.dest) = Except.error msg ∧
      copyStep io m fs = (fs, some msg)) ∨
    (∃ fs1, ensureDir io fs (pathDirname m.dest) = Except.ok fs1 ∧
      ((∃ msg, copyFileSync io fs1 m.src m.dest = Except.error msg ∧
          copyStep io m fs = (fs1, some msg)) ∨
       (∃ fs2, copyFileSync io fs1 m.src m.dest = Except.ok fs2 ∧
          copyStep io m fs = (fs2, none)))) := by
  unfold copyStep
  generalize ensureDir io fs (pathDirname m.dest) = g
  cases g with
  | error msg => left; exact ⟨msg, rfl, rfl⟩
  | ok fs1 =>
    right
    refine ⟨fs1, rfl, ?_⟩
    simp only []
    generalize copyFileSync io fs1 m.src m.dest = r
    cases r with
    | error msg => left; exact ⟨msg, rfl, rfl⟩
    | ok fs2 => right; exact ⟨fs2, rfl, rfl⟩

theorem copyStep_frame (io : Faults) (m : Mapping) (fs : FS)
    (hd : existsSync io fs m.dest = false) (q : PathName) :
    (copyStep io m fs).1 q = fs q ∨
      (fs q = none ∧
        ((q = m.dest ∧ (copyStep io m fs).2 = none ∧
            isFile ((copyStep io m fs).1 q) = true) ∨
          (q <+: pathDirname m.dest ∧ (copyStep io m fs).1 q = some Node.dir))) := by
  rcases copyStep_cases io m fs with ⟨msg, _, e⟩ | ⟨fs1, h1, hc⟩
  · rw [e]; left; rfl
  · have hfs1 : fs1 q = fs q ∨
        (fs q = none ∧ q <+: pathDirname m.dest ∧ fs1 q = some Node.dir) := by
      rcases (ensureDir_ok h1).1 with h | h
      · left; rw [h]
      · rw [h]; exact withDirs_cases fs _ q
    rcases hc with ⟨msg, _, e⟩ | ⟨fs2, h2, e⟩
    · rw [e]
      rcases hfs1 with h | ⟨h0, hp, hv⟩
      · left; exact h
      · right; exact ⟨h0, Or.inr ⟨hp, hv⟩⟩
    · rw [e]
      have hst := (copyFileSync_ok_stat h2).2
      obtain ⟨c, _, _, rfl⟩ := copyFileSync_ok h2
      have hnone : fs m.dest = none := absent_of_existsSync_false hd hst
      by_cases hq : q = m.dest
      · subst hq
        right
        refine ⟨hnone, Or.inl ⟨rfl, rfl, ?_⟩⟩
        simp [withFile, isFile]
      · have : withFile fs1 m.dest c q = fs1 q := by simp [withFile, hq]
        simp only [this]
        rcases hfs1 with h | ⟨h0, hp, hv⟩
        · left; exact h
        · right; exact ⟨h0, Or.inr ⟨hp, hv⟩⟩

theorem copyStep_success {io : Faults} {m : Mapping} {fs : FS}
    (h : (copyStep io m fs).2 = none) (hs : (fs m.src).isSome = true) :
    ∃ c, fs m.src = some (Node.file c) ∧
      (copyStep io m fs).1 m.dest = some (Node.file c) := by
  rcases copyStep_cases io m fs with ⟨msg, _, e⟩ | ⟨fs1, h1, ⟨msg, _, e⟩ | ⟨fs2, h2, e⟩⟩
  · rw [e] at h; cases h
  · rw [e] at h; cases h
  · rw [e]
    obtain ⟨c, hc, _, rfl⟩ := copyFileSync_ok h2
    refine ⟨c, ?_, by simp [withFile]⟩
    obtain ⟨n, hn⟩ := Option.isSome_iff_exists.mp hs
    rcases (ensureDir_ok h1).1 with e1 | e1
    · rw [← e1]; exact hc
    · rw [e1, withDirs_of_some hn] at hc
      rw [hn, hc]

theorem copyStep_success_stat {io : Faults} {m : Mapping} {fs : FS}
    (h : (copyStep io m fs).2 = none) : io.stat m.src = none ∧ io.stat m.dest = none := by
  rcases copyStep_cases io m fs with ⟨msg, _, e⟩ | ⟨fs1, _, ⟨msg, _, e⟩ | ⟨fs2, h2, _⟩⟩
  · rw [e] at h; cases h
  · rw [e] at h; cases h
  · exact copyFileSync_ok_stat h2

/-- The tail of the `try` block, from `copyFileSync` on, depends on the state only at
the source, the destination and the destination directory. -/
theorem copyTail_congr (io : Faults) (m : Mapping) (f f' : FS)
    (h1 : f' m.src = f m.src) (h2 : f' m.dest = f m.dest)
    (h3 : f' (pathDirname m.dest) = f (pathDirname m.dest)) :
    (match copyFileSync io f' m.src m.dest with
      | Except.error msg => (f', some msg)
      | Except.ok fs2 => (fs2, none)).2 =
    (match copyFileSync io f m.src m.dest with
      | Except.error msg => (f, some msg)
      | Except.ok fs2 => (fs2, none)).2 ∧
    (match copyFileSync io f' m.src m.dest with
      | Except.error msg => (f', some msg)
      | Except.ok fs2 => (fs2, none)).1 m.dest =
    (match copyFileSync io f m.src m.dest with
      | Except.error msg => (f, some msg)
      | Except.ok fs2 => (fs2, none)).1 m.dest := by
  unfold copyFileSync
  rw [h1, h2, h3]
  cases io.stat m.src with
  | some msg => simp [h2]
  | none =>
  cases io.stat m.dest with
  | some msg => simp [h2]
  | none =>
  cases io.copy m.src m.dest with
  | some msg => simp [h2]
  | none =>
    cases f m.src with
    | none => simp [h2]
    | some n =>
      cases n with
      | dir => simp [h2]
      | file c =>
        cases f (pathDirname m.dest) with
        | none => simp [h2]
        | some n2 =>
          cases n2 with
          | file c2 => simp [h2]
          | dir =>
            cases hd : f m.dest with
            | none => simp [withFile]
            | some n3 =>
              cases n3 with
              | dir => simp [h2, hd]
              | file c3 => simp [withFile]

theorem withDirs_congr_at {f f' : FS} (d q : PathName) (h : f' q = f q) :
    withDirs f' d q = withDirs f d q := by
  simp [withDirs, h]

theorem any_isFile_congr {f f' : FS} {d : PathName}
    (h : ∀ q, q <+: d → isFile (f' q) = isFile (f q)) :
    d.inits.any (fun q => isFile (f' q)) = d.inits.any (fun q => isFile (f q)) := by
  rw [Bool.eq_iff_iff]
  simp only [List.any_eq_true, List.mem_inits]
  constructor
  · rintro ⟨q, hq, hf⟩; exact ⟨q, hq, by rw [← h q hq]; exact hf⟩
  · rintro ⟨q, hq, hf⟩; exact ⟨q, hq, by rw [h q hq]; exact hf⟩

theorem mkdirSync_congr (io : Faults) {f f' : FS} {d : PathName}
    (h : ∀ q, q <+: d → isFile (f' q) = isFile (f q)) :
    (mkdirSync io f' d = Except.ok (withDirs f' d) ∧
      mkdirSync io f d = Except.ok (withDirs f d)) ∨
    ∃ msg, mkdirSync io f' d = Except.error msg ∧ mkdirSync io f d = Except.error msg := by
  unfold mkdirSync
  rw [any_isFile_congr h]
  cases io.stat d with
  | some msg => right; exact ⟨msg, rfl, rfl⟩
  | none =>
    cases io.mkdir d with
    | some msg => right; exact ⟨msg, rfl, rfl⟩
    | none =>
      by_cases hf : d.inits.any (fun q => isFile (f q)) = true
      · right; simp [hf]
      · left; simp [hf]

/-- Processing a mapping in two states that agree on what it looks at raises the same
error, or none, and leaves the same thing at the destination. -/
theorem copyStep_congr (io : Faults) (m : Mapping) {fs fs' : FS} (h : Agree m fs fs') :
    (copyStep io m fs').2 = (copyStep io m fs).2 ∧
      (copyStep io m fs').1 m.dest = (copyStep io m fs).1 m.dest := by
  obtain ⟨h1, h2, h3, h4⟩ := h
  unfold copyStep ensureDir
  rw [existsSync_congr io h3]
  by_cases he : existsSync io fs (pathDirname m.dest) = true
  · simp only [he, Bool.not_true, Bool.false_eq_true, if_false]
    exact copyTail_congr io m fs fs' h1 h2 h3
  · simp only [he, Bool.not_false, if_true]
    rcases mkdirSync_congr io h4 with ⟨e', e⟩ | ⟨msg, e', e⟩
    · rw [e', e]
      exact copyTail_congr io m _ _ (withDirs_congr_at _ _ h1) (withDirs_congr_at _ _ h2)
        (withDirs_congr_at _ _ h3)
    · rw [e', e]
      exact ⟨rfl, h2⟩

/-! ## Lemmas on one iteration of the loop -/

theorem processMapping_eq (io : Faults) (m : Mapping) (st : RunState) :
    processMapping io m st =
      { fs := (stepOn io m st.fs).fs,
        log := st.log ++ (stepOn io m st.fs).log,
        copiedCount := st.copiedCount + (stepOn io m st.fs).copiedCount,
        skippedCount := st.skippedCount + (stepOn io m st.fs).skippedCount } := by
  unfold stepOn processMapping
  by_cases h1 : existsSync io st.fs m.src = true
  · by_cases h2 : existsSync io st.fs m.dest = true
    · simp [h1, h2, RunState.emit]
    · simp only [h1, h2, Bool.not_true, Bool.false_eq_true, if_false]
      rcases hc : copyStep io m st.fs with ⟨f, _ | msg⟩ <;> simp [RunState.emit]
  · simp [h1, RunState.emit]

theorem stepOn_missing {io : Faults} {m : Mapping} {fs : FS}
    (h : existsSync io fs m.src = false) :
    stepOn io m fs =
      ⟨fs, [⟨Level.warn, "Orphan file not found: " ++ pathBasename m.src⟩], 0, 0⟩ := by
  simp [stepOn, processMapping, h, RunState.emit]

theorem stepOn_exists {io : Faults} {m : Mapping} {fs : FS}
    (h1 : existsSync io fs m.src = true) (h2 : existsSync io fs m.dest = true) :
    stepOn io m fs =
      ⟨fs, [⟨Level.debug, "Skipping " ++ m.description ++ ": file already exists"⟩],
        0, 1⟩ := by
  simp [stepOn, processMapping, h1, h2, RunState.emit]

theorem stepOn_failed {io : Faults} {m : Mapping} {fs : FS} {msg : String}
    (h1 : existsSync io fs m.src = true) (h2 : existsSync io fs m.dest = false)
    (h3 : (copyStep io m fs).2 = some msg) :
    stepOn io m fs =
      ⟨(copyStep io m fs).1, [⟨Level.error, failText m msg⟩], 0, 0⟩ := by
  rcases hc : copyStep io m fs with ⟨f, o⟩
  rw [hc] at h3
  simp only at h3
  subst h3
  simp [stepOn, processMapping, h1, h2, hc, RunState.emit]

theorem stepOn_copied {io : Faults} {m : Mapping} {fs : FS}
    (h1 : existsSync io fs m.src = true) (h2 : existsSync io fs m.dest = false)
    (h3 : (copyStep io m fs).2 = none) :
    stepOn io m fs =
      ⟨(copyStep io m fs).1, [⟨Level.success, "Copied " ++ m.description⟩], 1, 0⟩ := by
  rcases hc : copyStep io m fs with ⟨f, o⟩
  rw [hc] at h3
  simp only at h3
  subst h3
  simp [stepOn, processMapping, h1, h2, hc, RunState.emit]

/-- The four ways one iteration can go. -/
theorem stepOn_cases (io : Faults) (m : Mapping) (fs : FS) :
    (existsSync io fs m.src = false ∧ stepOn io m fs =
      ⟨fs, [⟨Level.warn, "Orphan file not found: " ++ pathBasename m.src⟩], 0, 0⟩) ∨
    (existsSync io fs m.src = true ∧ existsSync io fs m.dest = true ∧ stepOn io m fs =
      ⟨fs, [⟨Level.debug, "Skipping " ++ m.description ++ ": file already exists"⟩],
        0, 1⟩) ∨
    (∃ msg, existsSync io fs m.src = true ∧ existsSync io fs m.dest = false ∧
      (copyStep io m fs).2 = some msg ∧ stepOn io m fs =
      ⟨(copyStep io m fs).1, [⟨Level.error, failText m msg⟩], 0, 0⟩) ∨
    (existsSync io fs m.src = true ∧ existsSync io fs m.dest = false ∧
      (copyStep io m fs).2 = none ∧ stepOn io m fs =
      ⟨(copyStep io m fs).1, [⟨Level.success, "Copied " ++ m.description⟩], 1, 0⟩) := by
  cases h1 : existsSync io fs m.src with
  | false => left; exact ⟨rfl, stepOn_missing h1⟩
  | true =>
    cases h2 : existsSync io fs m.dest with
    | true => right; left; exact ⟨rfl, rfl, stepOn_exists h1 h2⟩
    | false =>
      cases h3 : (copyStep io m fs).2 with
      | some msg => right; right; left; exact ⟨msg, rfl, rfl, rfl, stepOn_failed h1 h2 h3⟩
      | none => right; right; right; exact ⟨rfl, rfl, rfl, stepOn_copied h1 h2 h3⟩

/-- What one iteration may change: a path that named nothing now is the copied
destination file, or a directory on the way to it. -/
theorem stepOn_frame (io : Faults) (m : Mapping) (fs : FS) (q : PathName) :
    (stepOn io m fs).fs q = fs q ∨
      (fs q = none ∧
        ((q = m.dest ∧ (stepOn io m fs).copiedCount = 1 ∧
            isFile ((stepOn io m fs).fs q) = true) ∨
          (q <+: pathDirname m.dest ∧ (stepOn io m fs).fs q = some Node.dir))) := by
  rcases stepOn_cases io m fs with ⟨_, e⟩ | ⟨_, _, e⟩ | ⟨msg, _, h2, h3, e⟩ | ⟨_, h2, h3, e⟩
  · rw [e]; left; rfl
  · rw [e]; left; rfl
  · rw [e]
    rcases copyStep_frame io m fs h2 q with
      h | ⟨h0, ⟨_, hn, _⟩ | ⟨hp, hv⟩⟩
    · left; exact h
    · rw [h3] at hn; cases hn
    · right; exact ⟨h0, Or.inr ⟨hp, hv⟩⟩
  · rw [e]
    rcases copyStep_frame io m fs h2 q with
      h | ⟨h0, ⟨hq, _, hf⟩ | ⟨hp, hv⟩⟩
    · left; exact h
    · right; exact ⟨h0, Or.inl ⟨hq, rfl, hf⟩⟩
    · right; exact ⟨h0, Or.inr ⟨hp, hv⟩⟩

/-- One iteration never changes what an existing path names. -/
theorem stepOn_preserves (io : Faults) (m : Mapping) {fs : FS} {q : PathName} {n : Node}
    (h : fs q = some n) : (stepOn io m fs).fs q = some n := by
  rcases stepOn_frame io m fs q with e | ⟨h0, _⟩
  · rw [e, h]
  · rw [h] at h0; cases h0

/-- An iteration leaves a path it cannot touch as it was. -/
theorem stepOn_untouched (io : Faults) (m : Mapping) (fs : FS) {q : PathName}
    (h : ¬ Touched m q) : (stepOn io m fs).fs q = fs q := by
  rcases stepOn_frame io m fs q with e | ⟨_, ⟨hq, _⟩ | ⟨hp, _⟩⟩
  · exact e
  · exact absurd (Or.inl hq) h
  · exact absurd (Or.inr hp) h

theorem agree_refl (m : Mapping) (fs : FS) : Agree m fs fs :=
  ⟨rfl, rfl, rfl, fun _ _ => rfl⟩

/-- After processing `a`, the state still agrees with the one before on everything
that an independent mapping `b` looks at. -/
theorem agree_after (io : Faults) {a b : Mapping} (h : Independent a b) (fs : FS) :
    Agree b fs (stepOn io a fs).fs := by
  obtain ⟨h1, h2, h3, h4⟩ := h
  refine ⟨stepOn_untouched io a fs h1, stepOn_untouched io a fs h2,
    stepOn_untouched io a fs h3, ?_⟩
  intro q hq
  rcases stepOn_frame io a fs q with e | ⟨h0, ⟨hd, _⟩ | ⟨_, hv⟩⟩
  · rw [e]
  · exact absurd (hd ▸ hq) h4
  · rw [h0, hv]; rfl

theorem agree_symm {m : Mapping} {fs fs' : FS} (h : Agree m fs fs') : Agree m fs' fs :=
  ⟨h.1.symm, h.2.1.symm, h.2.2.1.symm, fun q hq => (h.2.2.2 q hq).symm⟩

/-- Two states that agree on what `m` looks at give the same logged line, the same
counter increments and the same thing at the destination. -/
theorem stepOn_congr (io : Faults) (m : Mapping) {fs fs' : FS} (h : Agree m fs fs') :
    (stepOn io m fs').log = (stepOn io m fs).log ∧
    (stepOn io m fs').copiedCount = (stepOn io m fs).copiedCount ∧
    (stepOn io m fs').skippedCount = (stepOn io m fs).skippedCount ∧
    (stepOn io m fs').fs m.dest = (stepOn io m fs).fs m.dest := by
  have hs : existsSync io fs' m.src = existsSync io fs m.src := by simp [existsSync, h.1]
  have hd : existsSync io fs' m.dest = existsSync io fs m.dest := by simp [existsSync, h.2.1]
  obtain ⟨hc2, hc1⟩ := copyStep_congr io m h
  rcases stepOn_cases io m fs with ⟨h1, e⟩ | ⟨h1, h2, e⟩ | ⟨msg, h1, h2, h3, e⟩ |
    ⟨h1, h2, h3, e⟩
  · rw [e, stepOn_missing (hs.trans h1)]; exact ⟨rfl, rfl, rfl, h.2.1⟩
  · rw [e, stepOn_exists (hs.trans h1) (hd.trans h2)]; exact ⟨rfl, rfl, rfl, h.2.1⟩
  · rw [e, stepOn_failed (hs.trans h1) (hd.trans h2) (hc2.trans h3)]
    exact ⟨rfl, rfl, rfl, hc1⟩
  · rw [e, stepOn_copied (hs.trans h1) (hd.trans h2) (hc2.trans h3)]
    exact ⟨rfl, rfl, rfl, hc1⟩

/-! ## Processing a mapping a second time -/

theorem ensureDir_error {io : Faults} {fs : FS} {d : PathName} {msg : String}
    (h : ensureDir io fs d = Except.error msg) :
    existsSync io fs d = false ∧ mkdirSync io fs d = Except.error msg := by
  unfold ensureDir at h
  cases he : existsSync io fs d with
  | true => simp [he] at h
  | false => simp [he] at h; exact ⟨rfl, h⟩

theorem copyStep_of_ensure_error {io : Faults} {m : Mapping} {fs : FS} {msg : String}
    (h : ensureDir io fs (pathDirname m.dest) = Except.error msg) :
    copyStep io m fs = (fs, some msg) := by
  simp [copyStep, h]

theorem copyStep_of_copy_error {io : Faults} {m : Mapping} {fs fs1 : FS} {msg : String}
    (h : ensureDir io fs (pathDirname m.dest) = Except.ok fs1)
    (hc : copyFileSync io fs1 m.src m.dest = Except.error msg) :
    copyStep io m fs = (fs1, some msg) := by
  simp [copyStep, h, hc]

/-- Whether `copyFileSync` throws, and with what message, depends on the state only at
the source, the destination and the destination directory. -/
theorem copyFileSync_error_congr (io : Faults) (m : Mapping) {f f' : FS} {msg : String}
    (h1 : f' m.src = f m.src) (h2 : f' m.dest = f m.dest)
    (h3 : f' (pathDirname m.dest) = f (pathDirname m.dest))
    (h : copyFileSync io f m.src m.dest = Except.error msg) :
    copyFileSync io f' m.src m.dest = Except.error msg := by
  have key := (copyTail_congr io m f f' h1 h2 h3).1
  rw [h] at key
  cases h' : copyFileSync io f' m.src m.dest with
  | error msg' => rw [h'] at key; simp at key; rw [key]
  | ok fs2 => rw [h'] at key; simp at key

theorem not_prefix_dropLast {l : PathName} (h : l ≠ []) : ¬ l <+: pathDirname l := by
  intro hp
  have h1 := hp.length_le
  have h2 : 0 < l.length := List.length_pos.mpr h
  simp [pathDirname, List.length_dropLast] at h1
  omega

/-- A failed attempt, started again from the state it left (or one that agrees with it
on what the mapping looks at), fails with the same message and changes nothing. -/
theorem copyStep_failed_again (io : Faults) (m : Mapping) {fs F : FS} {msg : String}
    (h3 : (copyStep io m fs).2 = some msg) (hA : Agree m (copyStep io m fs).1 F) :
    copyStep io m F = (F, some msg) := by
  rcases copyStep_cases io m fs with ⟨msg', hg, e⟩ | ⟨fs1, hg, ⟨msg', hc, e⟩ | ⟨fs2, _, e⟩⟩
  · rw [e] at h3 hA
    simp only [Option.some.injEq] at h3
    subst h3
    obtain ⟨he, hm⟩ := ensureDir_error hg
    apply copyStep_of_ensure_error
    have he' : existsSync io F (pathDirname m.dest) = false :=
      (existsSync_congr io hA.2.2.1).trans he
    unfold ensureDir
    simp only [he', Bool.not_false, if_true]
    rcases mkdirSync_congr io hA.2.2.2 with ⟨_, e2⟩ | ⟨msg2, e1, e2⟩
    · rw [hm] at e2; cases e2
    · rw [hm] at e2; cases e2; exact e1
  · rw [e] at h3 hA
    simp only [Option.some.injEq] at h3
    subst h3
    have hd : existsSync io F (pathDirname m.dest) = true :=
      (existsSync_congr io hA.2.2.1).trans (ensureDir_ok hg).2
    have hg' : ensureDir io F (pathDirname m.dest) = Except.ok F := by
      simp [ensureDir, hd]
    exact copyStep_of_copy_error hg'
      (copyFileSync_error_congr io m hA.1 hA.2.1 hA.2.2.1 hc)
  · rw [e] at h3; cases h3

/-- An attempt leaves the source, which is there, as it was. -/
theorem copyStep_src (io : Faults) (m : Mapping) {fs : FS}
    (h1 : existsSync io fs m.src = true) (h2 : existsSync io fs m.dest = false) :
    (copyStep io m fs).1 m.src = fs m.src := by
  obtain ⟨n, hn⟩ := Option.isSome_iff_exists.mp (existsSync_true h1).2
  rcases copyStep_frame io m fs h2 m.src with h | ⟨h0, _⟩
  · exact h
  · rw [hn] at h0; cases h0

/-- Processing a mapping again, in the state the first pass left (or one that agrees
with it on what the mapping looks at), changes nothing and copies nothing: what was
copied or skipped is skipped, and a missing source or a failure repeats. -/
theorem stepOn_again (io : Faults) (m : Mapping) (hne : m.dest ≠ []) (fs F : FS)
    (hA : Agree m (stepOn io m fs).fs F) :
    (stepOn io m F).fs = F ∧ (stepOn io m F).copiedCount = 0 ∧
    (stepOn io m F).skippedCount =
      (stepOn io m fs).copiedCount + (stepOn io m fs).skippedCount ∧
    (stepOn io m F).log =
      if (stepOn io m fs).copiedCount = 1 then [skipLine m] else (stepOn io m fs).log := by
  rcases stepOn_cases io m fs with ⟨h1, e⟩ | ⟨h1, h2, e⟩ | ⟨msg, h1, h2, h3, e⟩ |
    ⟨h1, h2, h3, e⟩
  · rw [e] at hA ⊢
    have h1' : existsSync io F m.src = false := (existsSync_congr io hA.1).trans h1
    rw [stepOn_missing h1']
    simp
  · rw [e] at hA ⊢
    have h1' : existsSync io F m.src = true := (existsSync_congr io hA.1).trans h1
    have h2' : existsSync io F m.dest = true := (existsSync_congr io hA.2.1).trans h2
    rw [stepOn_exists h1' h2']
    simp
  · rw [e] at hA ⊢
    simp only at hA
    have hsrc := copyStep_src io m h1 h2
    have hdest : (copyStep io m fs).1 m.dest = fs m.dest := by
      rcases copyStep_frame io m fs h2 m.dest with h | ⟨_, ⟨_, hn2, _⟩ | ⟨hp, _⟩⟩
      · exact h
      · rw [h3] at hn2; cases hn2
      · exact absurd hp (not_prefix_dropLast hne)
    have h1' : existsSync io F m.src = true :=
      (existsSync_congr io (hA.1.trans hsrc)).trans h1
    have h2' : existsSync io F m.dest = false :=
      (existsSync_congr io (hA.2.1.trans hdest)).trans h2
    have hc := copyStep_failed_again io m h3 hA
    have hc2 : (copyStep io m F).2 = some msg := by rw [hc]
    rw [stepOn_failed h1' h2' hc2, hc]
    simp
  · rw [e] at hA ⊢
    simp only at hA
    have hsrc := copyStep_src io m h1 h2
    obtain ⟨c, _, hdest⟩ := copyStep_success h3 (existsSync_true h1).2
    have hst := (copyStep_success_stat h3).2
    have h1' : existsSync io F m.src = true :=
      (existsSync_congr io (hA.1.trans hsrc)).trans h1
    have h2' : existsSync io F m.dest = true := by
      simp [existsSync, hA.2.1, hdest, hst]
    rw [stepOn_exists h1' h2']
    simp [skipLine]

/-! ## The two mappings of the script -/

theorem fileMappings_eq (scriptDir : PathName) :
    fileMappings scriptDir =
      [componentSamplesMapping (projectRoot scriptDir),
        samplesMapping (projectRoot scriptDir)] := by
  simp [fileMappings, orphansDir, pathJoin, joinSeg, componentSamplesMapping,
    samplesMapping, projectRoot]

theorem componentSamples_dirname (root : PathName) :
    pathDirname (componentSamplesMapping root).dest = root ++ ["pages", "shared", "data"] := by
  simp [pathDirname, componentSamplesMapping, List.dropLast_append_of_ne_nil]

theorem samples_dirname (root : PathName) :
    pathDirname (samplesMapping root).dest = root ++ ["examples", "static", "samples"] := by
  simp [pathDirname, samplesMapping, List.dropLast_append_of_ne_nil]

theorem independent_first_second (root : PathName) :
    Independent (componentSamplesMapping root) (samplesMapping root) := by
  unfold Independent Touched
  rw [componentSamples_dirname, samples_dirname]
  simp [componentSamplesMapping, samplesMapping, List.prefix_append_right_inj]

theorem independent_second_first (root : PathName) :
    Independent (samplesMapping root) (componentSamplesMapping root) := by
  unfold Independent Touched
  rw [componentSamples_dirname, samples_dirname]
  simp [componentSamplesMapping, samplesMapping, List.prefix_append_right_inj]

theorem componentSamples_dest_ne (root : PathName) :
    (componentSamplesMapping root).dest ≠ [] := by
  simp [componentSamplesMapping]

theorem samples_dest_ne (root : PathName) : (samplesMapping root).dest ≠ [] := by
  simp [samplesMapping]

/-! ## Lemmas on the whole loop -/

theorem processAll_cons (io : Faults) (m : Mapping) (ms : List Mapping) (st : RunState) :
    processAll io (m :: ms) st = processAll io ms (processMapping io m st) := rfl

theorem processMapping_preserves (io : Faults) (m : Mapping) (st : RunState)
    {q : PathName} {n : Node} (h : st.fs q = some n) :
    (processMapping io m st).fs q = some n := by
  rw [processMapping_eq]
  exact stepOn_preserves io m h

/-- The loop never changes what an existing path names. -/
theorem processAll_preserves (io : Faults) (ms : List Mapping) (st : RunState)
    {q : PathName} {n : Node} (h : st.fs q = some n) :
    (processAll io ms st).fs q = some n := by
  induction ms generalizing st with
  | nil => exact h
  | cons m ms ih =>
    rw [processAll_cons]
    exact ih _ (processMapping_preserves io m st h)

theorem stateBefore_succ (io : Faults) (ms : List Mapping) (fs : FS) {i : Nat}
    {m : Mapping} (h : ms[i]? = some m) :
    stateBefore io ms fs (i + 1) = processMapping io m (stateBefore io ms fs i) := by
  unfold stateBefore processAll
  rw [List.take_succ, h]
  simp [List.foldl_append]

theorem stateBefore_preserves (io : Faults) (ms : List Mapping) (fs : FS) (i : Nat)
    {q : PathName} {n : Node} (h : fs q = some n) :
    (stateBefore io ms fs i).fs q = some n :=
  processAll_preserves io _ _ h

theorem loop_eq (io : Faults) (scriptDir : PathName) (fs : FS) :
    processAll io (fileMappings scriptDir) (startState fs) =
      { fs := (secondStep io scriptDir fs).fs,
        log := openingLine :: ((firstStep io scriptDir fs).log ++
          (secondStep io scriptDir fs).log),
        copiedCount := (firstStep io scriptDir fs).copiedCount +
          (secondStep io scriptDir fs).copiedCount,
        skippedCount := (firstStep io scriptDir fs).skippedCount +
          (secondStep io scriptDir fs).skippedCount } := by
  rw [fileMappings_eq]
  simp only [processAll, List.foldl]
  rw [processMapping_eq, processMapping_eq]
  simp [startState, firstStep, secondStep, openingLine]

theorem bootstrapOrphans_eq (io : Faults) (scriptDir : PathName) (fs : FS) :
    bootstrapOrphans io scriptDir fs =
      { fs := (secondStep io scriptDir fs).fs,
        log := openingLine :: ((firstStep io scriptDir fs).log ++
          (secondStep io scriptDir fs).log) ++
          summary ((firstStep io scriptDir fs).copiedCount +
              (secondStep io scriptDir fs).copiedCount)
            ((firstStep io scriptDir fs).skippedCount +
              (secondStep io scriptDir fs).skippedCount),
        copiedCount := (firstStep io scriptDir fs).copiedCount +
          (secondStep io scriptDir fs).copiedCount,
        skippedCount := (firstStep io scriptDir fs).skippedCount +
          (secondStep io scriptDir fs).skippedCount } := by
  unfold bootstrapOrphans bootstrapWith
  rw [loop_eq]

theorem countLevel_append (lvl : Level) (l1 l2 : List LogEntry) :
    countLevel lvl (l1 ++ l2) = countLevel lvl l1 + countLevel lvl l2 := by
  simp [countLevel]

theorem countLevel_cons (lvl : Level) (e : LogEntry) (l : List LogEntry) :
    countLevel lvl (e :: l) = (if e.level = lvl then 1 else 0) + countLevel lvl l := by
  unfold countLevel
  by_cases h : e.level = lvl <;> simp [List.filter_cons, h, Nat.add_comm]

theorem countLevel_summary (lvl : Level) (c s : Nat) (h1 : lvl ≠ Level.info)
    (h2 : lvl ≠ Level.complete) : countLevel lvl (summary c s) = 0 := by
  unfold summary countLevel
  simp only [List.length_eq_zero, List.filter_eq_nil_iff, List.mem_append]
  intro e he
  have : e.level = Level.info ∨ e.level = Level.complete := by
    rcases he with (he | he) | he
    · split at he
      · simp at he; right; rw [he]
      · simp at he
    · split at he
      · simp at he; left; rw [he]
      · simp at he
    · split at he
      · simp at he; left; rw [he]
      · simp at he
  rcases this with h | h <;> simp [h, Ne.symm h1, Ne.symm h2]

/-- One iteration logs one line, and its severity tells which counter moved. -/
theorem stepOn_tally (io : Faults) (m : Mapping) (fs : FS) :
    (stepOn io m fs).log.length = 1 ∧
    countLevel Level.success (stepOn io m fs).log = (stepOn io m fs).copiedCount ∧
    countLevel Level.debug (stepOn io m fs).log = (stepOn io m fs).skippedCount ∧
    countLevel Level.warn (stepOn io m fs).log + countLevel Level.error (stepOn io m fs).log
      + (stepOn io m fs).copiedCount + (stepOn io m fs).skippedCount = 1 := by
  rcases stepOn_cases io m fs with ⟨_, e⟩ | ⟨_, _, e⟩ | ⟨msg, _, _, _, e⟩ | ⟨_, _, _, e⟩ <;>
    rw [e] <;> simp [countLevel]

/-- The counter `copiedCount` moves exactly when the destination, which was not there,
now is a file. -/
theorem stepOn_created (io : Faults) (m : Mapping) (fs : FS) :
    (stepOn io m fs).copiedCount =
      if ((fs m.dest).isNone && isFile ((stepOn io m fs).fs m.dest)) = true then 1
      else 0 := by
  rcases stepOn_cases io m fs with ⟨_, e⟩ | ⟨_, _, e⟩ | ⟨msg, _, h2, h3, e⟩ | ⟨h1, h2, h3, e⟩
  · rw [e]; cases h : fs m.dest <;> simp [isFile, h]
  · rw [e]; cases h : fs m.dest <;> simp [isFile, h]
  · rw [e]
    rcases copyStep_frame io m fs h2 m.dest with h | ⟨_, ⟨_, hn, _⟩ | ⟨_, hv⟩⟩
    · simp only [h]; cases h' : fs m.dest <;> simp [isFile]
    · rw [h3] at hn; cases hn
    · simp [hv, isFile]
  · rw [e]
    have hd := absent_of_existsSync_false h2 (copyStep_success_stat h3).2
    obtain ⟨c, _, hc⟩ := copyStep_success h3 (existsSync_true h1).2
    simp [hd, hc, isFile]

theorem fileMappings_index {scriptDir : PathName} {i : Nat} {m : Mapping}
    (h : (fileMappings scriptDir)[i]? = some m) :
    (i = 0 ∧ m = componentSamplesMapping (projectRoot scriptDir)) ∨
    (i = 1 ∧ m = samplesMapping (projectRoot scriptDir)) := by
  rw [fileMappings_eq] at h
  match i, h with
  | 0, h => left; simp at h; exact ⟨rfl, h.symm⟩
  | 1, h => right; simp at h; exact ⟨rfl, h.symm⟩
  | (k + 2), h => simp at h

theorem stateBefore_zero (io : Faults) (ms : List Mapping) (fs : FS) :
    stateBefore io ms fs 0 = startState fs := by
  simp [stateBefore, processAll]

theorem stateBefore_one (io : Faults) (scriptDir : PathName) (fs : FS) :
    stateBefore io (fileMappings scriptDir) fs 1 =
      { fs := (firstStep io scriptDir fs).fs,
        log := openingLine :: (firstStep io scriptDir fs).log,
        copiedCount := (firstStep io scriptDir fs).copiedCount,
        skippedCount := (firstStep io scriptDir fs).skippedCount } := by
  rw [fileMappings_eq]
  simp only [stateBefore, processAll, List.take, List.foldl]
  rw [processMapping_eq]
  simp [startState, firstStep, openingLine]

/-- No mapping of the script has its source created or changed by an earlier one. -/
theorem stateBefore_src (io : Faults) (scriptDir : PathName) (fs : FS) {i : Nat}
    {m : Mapping} (hm : (fileMappings scriptDir)[i]? = some m) :
    (stateBefore io (fileMappings scriptDir) fs i).fs m.src = fs m.src := by
  rcases fileMappings_index hm with ⟨rfl, _⟩ | ⟨rfl, rfl⟩
  · rw [stateBefore_zero]; rfl
  · rw [stateBefore_one]
    simp only [firstStep]
    exact stepOn_untouched io _ fs (independent_first_second _).1

/-! ## Lemmas on the JSON text -/

theorem hexValue_hexDigit (k : Nat) (h : k < 16) : hexValue (hexDigit k) = some k := by
  interval_cases k <;> decide

theorem char_eq_of_toNat {c : Char} {n : Nat} (h : c.toNat = n) : Char.ofNat n = c := by
  rw [← h]
  exact Char.ofNat_toNat c

theorem read_escape (e : Char) (ch : Char) (acc tail : List Char) (h1 : e.toNat ≠ 117)
    (h2 : unescapeJSONChar e = some ch) :
    readJSONString ReadMode.plain acc (Char.ofNat 92 :: e :: tail) =
      readJSONString ReadMode.plain (ch :: acc) tail := by
  have a1 : (Char.ofNat 92).toNat ≠ 34 := by decide
  have a2 : (Char.ofNat 92).toNat = 92 := by decide
  simp [readJSONString, a2, h1, h2]

theorem read_unicode (a b : Nat) (ha : a < 16) (hb : b < 16) (acc tail : List Char) :
    readJSONString ReadMode.plain acc
      (Char.ofNat 92 :: Char.ofNat 117 :: Char.ofNat 48 :: Char.ofNat 48 ::
        hexDigit a :: hexDigit b :: tail) =
      readJSONString ReadMode.plain (Char.ofNat (16 * a + b) :: acc) tail := by
  have a1 : (Char.ofNat 92).toNat ≠ 34 := by decide
  have a2 : (Char.ofNat 92).toNat = 92 := by decide
  have a3 : (Char.ofNat 117).toNat = 117 := by decide
  have a4 : hexValue (Char.ofNat 48) = some 0 := by decide
  simp [readJSONString, a1, a2, a3, a4, hexValue_hexDigit a ha, hexValue_hexDigit b hb]

theorem read_plain (c : Char) (acc tail : List Char) (h1 : c.toNat ≠ 34)
    (h2 : c.toNat ≠ 92) (h3 : ¬ c.toNat < 32) :
    readJSONString ReadMode.plain acc (c :: tail) =
      readJSONString ReadMode.plain (c :: acc) tail := by
  simp only [readJSONString, h1, h2, h3, if_false]

theorem read_quoteJSONChar (c : Char) (acc tail : List Char) :
    readJSONString ReadMode.plain acc (quoteJSONChar c ++ tail) =
      readJSONString ReadMode.plain (c :: acc) tail := by
  unfold quoteJSONChar
  simp only []
  split
  · rename_i h; rw [← char_eq_of_toNat h]; exact read_escape _ _ _ _ (by decide) (by decide)
  split
  · rename_i h; rw [← char_eq_of_toNat h]; exact read_escape _ _ _ _ (by decide) (by decide)
  split
  · rename_i h; rw [← char_eq_of_toNat h]; exact read_escape _ _ _ _ (by decide) (by decide)
  split
  · rename_i h; rw [← char_eq_of_toNat h]; exact read_escape _ _ _ _ (by decide) (by decide)
  split
  · rename_i h; rw [← char_eq_of_toNat h]; exact read_escape _ _ _ _ (by decide) (by decide)
  split
  · rename_i h; rw [← char_eq_of_toNat h]; exact read_escape _ _ _ _ (by decide) (by decide)
  split
  · rename_i h; rw [← char_eq_of_toNat h]; exact read_escape _ _ _ _ (by decide) (by decide)
  split
  · rename_i h
    have := read_unicode (c.toNat / 16) (c.toNat % 16) (by omega) (by omega) acc tail
    rw [show 16 * (c.toNat / 16) + c.toNat % 16 = c.toNat by omega, Char.ofNat_toNat] at this
    exact this
  · rename_i h34 h92 h
    exact read_plain c acc tail h34 h92 h

theorem read_quoted (s acc tail : List Char) :
    readJSONString ReadMode.plain acc (s.flatMap quoteJSONChar ++ Char.ofNat 34 :: tail) =
      some (acc.reverse ++ s, tail) := by
  induction s generalizing acc with
  | nil =>
    have a1 : (Char.ofNat 34).toNat = 34 := by decide
    simp [readJSONString, a1]
  | cons c s ih =>
    rw [List.flatMap_cons, List.append_assoc, read_quoteJSONChar, ih]
    simp

theorem expectLiteral_append (lit : String) (rest : List Char) :
    expectLiteral lit (lit.data ++ rest) = some rest := by
  have : lit.data.isPrefixOf (lit.data ++ rest) = true :=
    List.isPrefixOf_iff_prefix.mpr (List.prefix_append _ _)
  simp [expectLiteral, this]

theorem readQuoted_quote (s : String) (rest : List Char) :
    readQuoted ((quoteJSONString s).data ++ rest) = some (s, rest) := by
  have a1 : (Char.ofNat 34).toNat = 34 := by decide
  simp only [quoteJSONString, List.singleton_append, List.cons_append, List.append_assoc,
    readQuoted, a1, if_true, List.nil_append]
  rw [read_quoted]
  simp

/-- Reading back what `JSON.stringify` wrote gives the object. -/
theorem parse_stringify (r : FilterState) : parseFilterState (jsonStringify r) = some r := by
  unfold parseFilterState jsonStringify
  simp only [String.data_append, List.append_assoc]
  rw [expectLiteral_append]
  simp only [Option.some_bind]
  rw [readQuoted_quote]
  simp only [Option.some_bind]
  rw [expectLiteral_append]
  simp only [Option.some_bind]
  rw [readQuoted_quote]
  simp only [Option.some_bind]
  rw [expectLiteral_append]
  simp only [Option.some_bind]
  rw [readQuoted_quote]
  simp

/-- A destination that is on disk in a directory that cannot be searched is reported
absent by `existsSync`: the copy is attempted and fails, nothing is counted as skipped
for it, and the destination is left as it was. -/
theorem unsearchable_destination_fails :
    (bootstrapOrphans unsearchableData ["platform", "lib"] bootstrappedProject).log =
      [openingLine,
        ⟨Level.error,
          "Failed to copy Component samples mapping: EACCES: permission denied, copyfile"⟩,
        skipLine (samplesMapping []),
        ⟨Level.info, "Skipped 1 existing file(s)"⟩] ∧
    (bootstrapOrphans unsearchableData ["platform", "lib"] bootstrappedProject).fs
      (componentSamplesMapping []).dest = some (Node.file "old") := by
  decide

/-! ## The claims -/

/-- C2: a destination path that exists before the call to `bootstrapOrphans` names the
same thing, with the same content, after it, whatever the environment's failures and
the state of the sources. -/
theorem existing_destination_unchanged (io : Faults) (scriptDir : PathName) (fs : FS)
    (m : Mapping) (n : Node) (_ : m ∈ fileMappings scriptDir)
    (h : fs m.dest = some n) :
    (bootstrapOrphans io scriptDir fs).fs m.dest = some n := by
  exact processAll_preserves io (fileMappings scriptDir) (startState fs) h

theorem existing_destination_unchanged_witness :
    componentSamplesMapping [] ∈ fileMappings ["platform", "lib"] ∧
    builtProject (componentSamplesMapping []).dest = some (Node.file "built") ∧
    (bootstrapOrphans noFaults ["platform", "lib"] builtProject).fs
      (componentSamplesMapping []).dest = some (Node.file "built") :=
  ⟨by decide, by decide,
    existing_destination_unchanged noFaults ["platform", "lib"] builtProject
      (componentSamplesMapping []) (Node.file "built") (by decide) (by decide)⟩

/-- C4: when the source of the `i`-th mapping does not exist as the mapping is
processed, the iteration only logs the warning: the state before the next mapping is
the state before this one with that line added, so the file system and both counters
are as they were, no error is logged, and the loop goes on with the next mapping. -/
theorem missing_source_only_warns (io : Faults) (scriptDir : PathName) (fs : FS)
    (i : Nat) (m : Mapping) (hm : (fileMappings scriptDir)[i]? = some m)
    (h : existsSync io (stateBefore io (fileMappings scriptDir) fs i).fs m.src = false) :
    stateBefore io (fileMappings scriptDir) fs (i + 1) =
      (stateBefore io (fileMappings scriptDir) fs i).emit Level.warn
        ("Orphan file not found: " ++ pathBasename m.src) ∧
    (stateBefore io (fileMappings scriptDir) fs (i + 1)).fs =
      (stateBefore io (fileMappings scriptDir) fs i).fs ∧
    ∀ rest, processAll io (m :: rest) (stateBefore io (fileMappings scriptDir) fs i) =
      processAll io rest ((stateBefore io (fileMappings scriptDir) fs i).emit Level.warn
        ("Orphan file not found: " ++ pathBasename m.src)) := by
  have key : processMapping io m (stateBefore io (fileMappings scriptDir) fs i) =
      (stateBefore io (fileMappings scriptDir) fs i).emit Level.warn
        ("Orphan file not found: " ++ pathBasename m.src) := by
    simp [processMapping, h]
  refine ⟨?_, ?_, ?_⟩
  · rw [stateBefore_succ io _ fs hm, key]
  · rw [stateBefore_succ io _ fs hm, key]; rfl
  · intro rest
    rw [processAll_cons, key]

theorem missing_source_only_warns_witness :
    (fileMappings ["platform", "lib"])[0]? = some (componentSamplesMapping []) ∧
    (stateBefore noFaults (fileMappings ["platform", "lib"]) builtProject 1).log =
      [openingLine, ⟨Level.warn, "Orphan file not found: componentSamples.json"⟩] :=
  ⟨by decide, by
    rw [(missing_source_only_warns noFaults ["platform", "lib"] builtProject 0
      (componentSamplesMapping []) (by decide) (by decide)).1]
    decide⟩

/-- C3, as the code has it: when `existsSync` reports the destination of the `i`-th
mapping present before the call, then, if it reports the source present too, the
iteration logs the debug line and adds one to `skippedCount`, and changes nothing else;
and if it reports the source absent, the iteration logs the missing-source warning
instead and leaves `skippedCount` as it was. -/
theorem existing_destination_skipped (io : Faults) (scriptDir : PathName) (fs : FS)
    (i : Nat) (m : Mapping) (hm : (fileMappings scriptDir)[i]? = some m)
    (hd : existsSync io fs m.dest = true) :
    (existsSync io fs m.src = true →
      stateBefore io (fileMappings scriptDir) fs (i + 1) =
        { (stateBefore io (fileMappings scriptDir) fs i).emit Level.debug
            ("Skipping " ++ m.description ++ ": file already exists") with
          skippedCount :=
            (stateBefore io (fileMappings scriptDir) fs i).skippedCount + 1 }) ∧
    (existsSync io fs m.src = false →
      stateBefore io (fileMappings scriptDir) fs (i + 1) =
        (stateBefore io (fileMappings scriptDir) fs i).emit Level.warn
          ("Orphan file not found: " ++ pathBasename m.src)) := by
  have hsrc := stateBefore_src io scriptDir fs hm
  obtain ⟨n1, hn1⟩ := Option.isSome_iff_exists.mp (existsSync_true hd).2
  have hd' : existsSync io (stateBefore io (fileMappings scriptDir) fs i).fs m.dest = true :=
    (existsSync_congr io
      ((stateBefore_preserves io (fileMappings scriptDir) fs i hn1).trans hn1.symm)).trans hd
  constructor
  · intro hs
    have hs' := (existsSync_congr io hsrc).trans hs
    rw [stateBefore_succ io _ fs hm]
    simp [processMapping, hd', hs']
  · intro hs
    have hs' := (existsSync_congr io hsrc).trans hs
    rw [stateBefore_succ io _ fs hm]
    simp [processMapping, hs']

theorem existing_destination_skipped_witness :
    (fileMappings ["platform", "lib"])[1]? = some (samplesMapping []) ∧
    (stateBefore noFaults (fileMappings ["platform", "lib"])
      (withFile freshProject (samplesMapping []).dest "old") 2).skippedCount = 1 ∧
    (stateBefore noFaults (fileMappings ["platform", "lib"]) builtProject 1).skippedCount
      = 0 :=
  ⟨by decide, by
    rw [(existing_destination_skipped noFaults ["platform", "lib"]
      (withFile freshProject (samplesMapping []).dest "old") 1
      (samplesMapping []) (by decide) (by decide)).1 (by decide)]
    decide, by
    rw [(existing_destination_skipped noFaults ["platform", "lib"] builtProject 0
      (componentSamplesMapping []) (by decide) (by decide)).2 (by decide)]
    decide⟩

/-- C3 as stated fails: in `builtProject`, where nothing fails, the first destination
exists before the call but its source is missing, and the run counts nothing as skipped
and logs no debug line; the entry gets the missing-source warning. -/
theorem existing_destination_not_always_skipped :
    existsSync noFaults builtProject (componentSamplesMapping []).dest = true ∧
    (fileMappings ["platform", "lib"])[0]? = some (componentSamplesMapping []) ∧
    (bootstrapOrphans noFaults ["platform", "lib"] builtProject).skippedCount = 0 ∧
    countLevel Level.debug (bootstrapOrphans noFaults ["platform", "lib"] builtProject).log
      = 0 ∧
    (bootstrapOrphans noFaults ["platform", "lib"] builtProject).log[1]? =
      some ⟨Level.warn, "Orphan file not found: componentSamples.json"⟩ := by
  decide

/-- C1 as stated fails: with both orphan files on disk in a directory that cannot be
searched, and neither destination there, no call throws, yet nothing is copied: the
first destination still does not exist after the run, `copiedCount` stays 0, and both
entries get the missing-source warning, because `existsSync` answers false for a path
on which `stat` fails. -/
theorem source_on_disk_not_copied :
    freshProject (componentSamplesMapping []).src =
      some (Node.file "\x7b\"samples\":1\x7d") ∧
    freshProject (componentSamplesMapping []).dest = none ∧
    (bootstrapOrphans unsearchableOrphans ["platform", "lib"] freshProject).log =
      [openingLine, ⟨Level.warn, "Orphan file not found: componentSamples.json"⟩,
        ⟨Level.warn, "Orphan file not found: samples.json"⟩,
        ⟨Level.info, "No orphan files needed to be bootstrapped"⟩] ∧
    (bootstrapOrphans unsearchableOrphans ["platform", "lib"] freshProject).fs
      (componentSamplesMapping []).dest = none ∧
    (bootstrapOrphans unsearchableOrphans ["platform", "lib"] freshProject).copiedCount
      = 0 := by
  decide

/-- C1, as the code has it: when `existsSync` reports the source of the `i`-th mapping
present and its destination absent as the mapping is processed, and neither
`mkdirSync` nor `copyFileSync` throws, then the source was a file at call time, after
the call the destination is a file with the content the source had at call time, and
the iteration adds exactly one to `copiedCount` (and nothing to `skippedCount`). -/
theorem copied_destination_has_source_content (io : Faults) (scriptDir : PathName)
    (fs : FS) (i : Nat) (m : Mapping) (hm : (fileMappings scriptDir)[i]? = some m)
    (hs : existsSync io (stateBefore io (fileMappings scriptDir) fs i).fs m.src = true)
    (hd : existsSync io (stateBefore io (fileMappings scriptDir) fs i).fs m.dest = false)
    (hok : (copyStep io m (stateBefore io (fileMappings scriptDir) fs i).fs).2 = none) :
    ∃ c, fs m.src = some (Node.file c) ∧
      (bootstrapOrphans io scriptDir fs).fs m.dest = some (Node.file c) ∧
      (stateBefore io (fileMappings scriptDir) fs (i + 1)).copiedCount =
        (stateBefore io (fileMappings scriptDir) fs i).copiedCount + 1 ∧
      (stateBefore io (fileMappings scriptDir) fs (i + 1)).skippedCount =
        (stateBefore io (fileMappings scriptDir) fs i).skippedCount := by
  have hcount : (stateBefore io (fileMappings scriptDir) fs (i + 1)).copiedCount =
        (stateBefore io (fileMappings scriptDir) fs i).copiedCount + 1 ∧
      (stateBefore io (fileMappings scriptDir) fs (i + 1)).skippedCount =
        (stateBefore io (fileMappings scriptDir) fs i).skippedCount := by
    rw [stateBefore_succ io _ fs hm, processMapping_eq, stepOn_copied hs hd hok]
    simp
  obtain ⟨c, hc, hdest⟩ := copyStep_success hok (existsSync_true hs).2
  refine ⟨c, ?_, ?_, hcount⟩
  · rw [stateBefore_src io scriptDir fs hm] at hc
    exact hc
  · rw [bootstrapOrphans_eq]
    simp only
    rcases fileMappings_index hm with ⟨rfl, rfl⟩ | ⟨rfl, rfl⟩
    · rw [stateBefore_zero] at hs hd hok hdest
      simp only [startState] at hs hd hok hdest
      apply stepOn_preserves
      simp only [firstStep]
      rw [stepOn_copied hs hd hok]
      exact hdest
    · rw [stateBefore_one] at hs hd hok hdest
      simp only at hs hd hok hdest
      simp only [secondStep]
      rw [stepOn_copied hs hd hok]
      exact hdest

theorem copied_destination_has_source_content_witness :
    (fileMappings ["platform", "lib"])[1]? = some (samplesMapping []) ∧
    ∃ c, freshProject (samplesMapping []).src = some (Node.file c) ∧
      (bootstrapOrphans noFaults ["platform", "lib"] freshProject).fs
        (samplesMapping []).dest = some (Node.file c) ∧
      (stateBefore noFaults (fileMappings ["platform", "lib"]) freshProject 2).copiedCount =
        (stateBefore noFaults (fileMappings ["platform", "lib"]) freshProject 1).copiedCount
          + 1 ∧
      (stateBefore noFaults (fileMappings ["platform", "lib"]) freshProject 2).skippedCount =
        (stateBefore noFaults (fileMappings ["platform", "lib"]) freshProject 1).skippedCount :=
  ⟨by decide,
    copied_destination_has_source_content noFaults ["platform", "lib"] freshProject 1
      (samplesMapping []) (by decide) (by decide) (by decide) (by decide)⟩

/-- C5 as stated fails: in the scenario (first source `{"x":1}` with its destination
absent, second source absent) the run ends with `copiedCount = 1` but
`skippedCount = 0`, not 1: the missing source is warned about and not counted. -/
theorem scenario_skipped_is_not_one :
    scenarioProject (componentSamplesMapping []).src = some (Node.file "\x7b\"x\":1\x7d") ∧
    scenarioProject (componentSamplesMapping []).dest = none ∧
    scenarioProject (samplesMapping []).src = none ∧
    (bootstrapOrphans noFaults ["platform", "lib"] scenarioProject).copiedCount = 1 ∧
    (bootstrapOrphans noFaults ["platform", "lib"] scenarioProject).skippedCount = 0 ∧
    (bootstrapOrphans noFaults ["platform", "lib"] scenarioProject).skippedCount ≠ 1 := by
  decide

/-- C5, as the code has it: when the first source is a file with content `c`, both
destinations and the second source are absent, and the first copy raises no error, the
run ends with `copiedCount = 1` and `skippedCount = 0`, logs one warning and no error,
the first destination holds `c` and the second destination does not exist. -/
theorem scenario_counts (io : Faults) (scriptDir : PathName) (fs : FS) (m0 m1 : Mapping)
    (c : String) (hms : fileMappings scriptDir = [m0, m1])
    (h1 : fs m0.src = some (Node.file c)) (h2 : fs m0.dest = none)
    (h3 : fs m1.src = none) (h4 : fs m1.dest = none)
    (hok : (copyStep io m0 fs).2 = none) :
    (bootstrapOrphans io scriptDir fs).copiedCount = 1 ∧
    (bootstrapOrphans io scriptDir fs).skippedCount = 0 ∧
    countLevel Level.warn (bootstrapOrphans io scriptDir fs).log = 1 ∧
    countLevel Level.error (bootstrapOrphans io scriptDir fs).log = 0 ∧
    (bootstrapOrphans io scriptDir fs).fs m0.dest = some (Node.file c) ∧
    (bootstrapOrphans io scriptDir fs).fs m1.dest = none := by
  rw [fileMappings_eq] at hms
  simp only [List.cons.injEq, and_true] at hms
  obtain ⟨rfl, rfl⟩ := hms
  have hs : existsSync io fs (componentSamplesMapping (projectRoot scriptDir)).src = true := by
    simp [existsSync, h1, (copyStep_success_stat hok).1]
  have hd : existsSync io fs (componentSamplesMapping (projectRoot scriptDir)).dest = false :=
    existsSync_of_none io h2
  have hF : firstStep io scriptDir fs = _ := stepOn_copied hs hd hok
  have hsrc2 : (firstStep io scriptDir fs).fs (samplesMapping (projectRoot scriptDir)).src
      = none := by
    simp only [firstStep]
    rw [stepOn_untouched io _ fs (independent_first_second _).1, h3]
  have hS : secondStep io scriptDir fs = _ :=
    @stepOn_missing io _ _ (existsSync_of_none io hsrc2)
  obtain ⟨c', hc', hdest⟩ := copyStep_success hok (existsSync_true hs).2
  rw [h1] at hc'
  cases hc'
  rw [bootstrapOrphans_eq, hS, hF]
  refine ⟨rfl, rfl, ?_, ?_, hdest, ?_⟩
  · simp [countLevel, summary, openingLine]
  · simp [countLevel, summary, openingLine]
  · have := stepOn_untouched io (componentSamplesMapping (projectRoot scriptDir)) fs
      (independent_first_second (projectRoot scriptDir)).2.1
    rw [stepOn_copied hs hd hok] at this
    simp only at this ⊢
    rw [this, h4]

theorem scenario_counts_witness :
    fileMappings ["platform", "lib"] = [componentSamplesMapping [], samplesMapping []] ∧
    (bootstrapOrphans noFaults ["platform", "lib"] scenarioProject).copiedCount = 1 ∧
    (bootstrapOrphans noFaults ["platform", "lib"] scenarioProject).skippedCount = 0 ∧
    countLevel Level.warn (bootstrapOrphans noFaults ["platform", "lib"] scenarioProject).log
      = 1 ∧
    countLevel Level.error (bootstrapOrphans noFaults ["platform", "lib"] scenarioProject).log
      = 0 ∧
    (bootstrapOrphans noFaults ["platform", "lib"] scenarioProject).fs
      (componentSamplesMapping []).dest = some (Node.file "\x7b\"x\":1\x7d") ∧
    (bootstrapOrphans noFaults ["platform", "lib"] scenarioProject).fs
      (samplesMapping []).dest = none :=
  ⟨by decide,
    scenario_counts noFaults ["platform", "lib"] scenarioProject (componentSamplesMapping [])
      (samplesMapping []) "\x7b\"x\":1\x7d" (by decide) (by decide) (by decide) (by decide)
      (by decide) (by decide)⟩

/-- C8 as stated fails: when both destinations are already there, the summary is the
skipped-count line alone, with no bootstrapped-count line before it. -/
theorem skipped_line_without_bootstrapped_line :
    (bootstrapOrphans noFaults ["platform", "lib"] bootstrappedProject).log =
      [openingLine, skipLine (componentSamplesMapping []), skipLine (samplesMapping []),
        ⟨Level.info, "Skipped 2 existing file(s)"⟩] ∧
    countLevel Level.complete
      (bootstrapOrphans noFaults ["platform", "lib"] bootstrappedProject).log = 0 := by
  decide

/-- C8, as the code has it: the log of a run ends with the summary of its two counters,
and the summary has one of four forms: the no-files-needed line (both counters zero),
the bootstrapped-count line alone, the bootstrapped-count line followed by the
skipped-count line, or the skipped-count line alone (nothing copied, something
skipped). -/
theorem summary_has_four_forms (io : Faults) (scriptDir : PathName) (fs : FS) :
    (bootstrapOrphans io scriptDir fs).log =
      (processAll io (fileMappings scriptDir) (startState fs)).log ++
        summary (bootstrapOrphans io scriptDir fs).copiedCount
          (bootstrapOrphans io scriptDir fs).skippedCount ∧
    ∀ c s : Nat,
      (c = 0 ∧ s = 0 ∧
        summary c s = [⟨Level.info, "No orphan files needed to be bootstrapped"⟩]) ∨
      (0 < c ∧ s = 0 ∧
        summary c s =
          [⟨Level.complete, "Bootstrapped " ++ toString c ++ " orphan file(s)"⟩]) ∨
      (0 < c ∧ 0 < s ∧
        summary c s =
          [⟨Level.complete, "Bootstrapped " ++ toString c ++ " orphan file(s)"⟩,
            ⟨Level.info, "Skipped " ++ toString s ++ " existing file(s)"⟩]) ∨
      (c = 0 ∧ 0 < s ∧
        summary c s = [⟨Level.info, "Skipped " ++ toString s ++ " existing file(s)"⟩]) := by
  refine ⟨rfl, ?_⟩
  intro c s
  rcases Nat.eq_zero_or_pos c with hc | hc <;> rcases Nat.eq_zero_or_pos s with hs | hs
  · left; subst hc; subst hs; exact ⟨rfl, rfl, by simp [summary]⟩
  · right; right; right; subst hc
    refine ⟨rfl, hs, ?_⟩
    have : s ≠ 0 := Nat.pos_iff_ne_zero.mp hs
    simp [summary, hs, this]
  · right; left; subst hs
    refine ⟨hc, rfl, ?_⟩
    have : c ≠ 0 := Nat.pos_iff_ne_zero.mp hc
    simp [summary, hc, this]
  · right; right; left
    refine ⟨hc, hs, ?_⟩
    have : c ≠ 0 := Nat.pos_iff_ne_zero.mp hc
    simp [summary, hc, hs, this]

/-- C9: for every event, also one without `queryStringParameters`, the handler answers
with status 200 and a body that is the JSON text of an object with exactly the three
properties `category`, `format` and `level`: the text is written out below, and reading
it back as JSON gives these three strings. Each is the lower-cased and trimmed value of
the parameter of that name, or the default (`''`, `'websites'`, `'beginner'`) exactly
when the parameter is absent or the empty string. The two string methods are taken to
leave the three defaults as they are, as JavaScript's do. -/
theorem handler_returns_normalized_params (ops : StringOps) (event : Event)
    (h0 : ops.trim (ops.toLowerCase "") = "")
    (h1 : ops.trim (ops.toLowerCase "websites") = "websites")
    (h2 : ops.trim (ops.toLowerCase "beginner") = "beginner") :
    (handler ops event).statusCode = 200 ∧
    (handler ops event).body =
      "\x7b\"category\":" ++ quoteJSONString (normalizedParam ops event "category" "") ++
      ",\"format\":" ++ quoteJSONString (normalizedParam ops event "format" "websites") ++
      ",\"level\":" ++ quoteJSONString (normalizedParam ops event "level" "beginner") ++
      "\x7d" ∧
    parseFilterState (handler ops event).body =
      some
        { category := normalizedParam ops event "category" "",
          format := normalizedParam ops event "format" "websites",
          level := normalizedParam ops event "level" "beginner" } ∧
    (∀ name fallback,
      (event.queryStringParameters.bind (fun p => p.lookup name) = none ∨
        event.queryStringParameters.bind (fun p => p.lookup name) = some "") →
      normalizedParam ops event name fallback = fallback) ∧
    (∀ name fallback v,
      event.queryStringParameters.bind (fun p => p.lookup name) = some v → v ≠ "" →
      normalizedParam ops event name fallback = ops.trim (ops.toLowerCase v)) := by
  have key : ∀ name fallback, ops.trim (ops.toLowerCase fallback) = fallback →
      ops.trim (ops.toLowerCase
        (orDefault (getParam (event.queryStringParameters.getD []) name) fallback)) =
      normalizedParam ops event name fallback := by
    intro name fallback hf
    unfold normalizedParam orDefault getParam
    cases event.queryStringParameters with
    | none => simp [hf]
    | some params =>
      simp only [Option.getD_some]
      cases params.lookup name with
      | none => simp [hf]
      | some v => by_cases hv : v = "" <;> simp [hv, hf]
  have hbody : (handler ops event).body =
      jsonStringify
        { category := normalizedParam ops event "category" "",
          format := normalizedParam ops event "format" "websites",
          level := normalizedParam ops event "level" "beginner" } := by
    simp only [handler]
    rw [key "category" "" h0, key "format" "websites" h1, key "level" "beginner" h2]
  refine ⟨rfl, ?_, ?_, ?_, ?_⟩
  · rw [hbody]; rfl
  · rw [hbody]; exact parse_stringify _
  · intro name fallback h
    unfold normalizedParam
    cases hq : event.queryStringParameters with
    | none => rfl
    | some params =>
      rw [hq] at h
      simp only [Option.some_bind] at h
      rcases h with h | h <;> simp [h]
  · intro name fallback v h hv
    unfold normalizedParam
    cases hq : event.queryStringParameters with
    | none => rw [hq] at h; simp at h
    | some params =>
      rw [hq] at h
      simp only [Option.some_bind] at h
      simp [h, hv]

theorem handler_returns_normalized_params_witness :
    asciiOps.trim (asciiOps.toLowerCase "websites") = "websites" ∧
    (handler asciiOps
      ⟨some [("category", "  Me\"dia \t"), ("format", "STORIES"), ("level", "")]⟩).body =
      "\x7b\"category\":\"me\\\"dia\",\"format\":\"stories\",\"level\":\"beginner\"\x7d" ∧
    parseFilterState (handler asciiOps
      ⟨some [("category", "  Me\"dia \t"), ("format", "STORIES"), ("level", "")]⟩).body =
      some { category := "me\"dia", format := "stories", level := "beginner" } ∧
    (handler asciiOps ⟨none⟩).body =
      "\x7b\"category\":\"\",\"format\":\"websites\",\"level\":\"beginner\"\x7d" :=
  ⟨by decide,
    (handler_returns_normalized_params asciiOps
      ⟨some [("category", "  Me\"dia \t"), ("format", "STORIES"), ("level", "")]⟩
      (by decide) (by decide) (by decide)).2.1.trans (by decide),
    (handler_returns_normalized_params asciiOps
      ⟨some [("category", "  Me\"dia \t"), ("format", "STORIES"), ("level", "")]⟩
      (by decide) (by decide) (by decide)).2.2.1.trans (by decide),
    (handler_returns_normalized_params asciiOps ⟨none⟩
      (by decide) (by decide) (by decide)).2.1.trans (by decide)⟩

/-- C10: in every run each mapping gets exactly one of the four outcomes (one line of
severity success, debug, warn or error), `copiedCount` counts the success lines and
`skippedCount` the debug lines, so the two counters and the numbers of missing-source
warnings and of failures add up to the number of mappings; `copiedCount` is the number
of destinations that were absent before the run and are files after it; and the two
counters together never exceed the number of mappings. -/
theorem outcome_partition (io : Faults) (scriptDir : PathName) (fs : FS) :
    (bootstrapOrphans io scriptDir fs).copiedCount +
        (bootstrapOrphans io scriptDir fs).skippedCount +
        countLevel Level.warn (bootstrapOrphans io scriptDir fs).log +
        countLevel Level.error (bootstrapOrphans io scriptDir fs).log =
      (fileMappings scriptDir).length ∧
    countLevel Level.success (bootstrapOrphans io scriptDir fs).log =
      (bootstrapOrphans io scriptDir fs).copiedCount ∧
    countLevel Level.debug (bootstrapOrphans io scriptDir fs).log =
      (bootstrapOrphans io scriptDir fs).skippedCount ∧
    (bootstrapOrphans io scriptDir fs).copiedCount =
      ((fileMappings scriptDir).filter (fun m =>
        (fs m.dest).isNone && isFile ((bootstrapOrphans io scriptDir fs).fs m.dest))).length ∧
    (bootstrapOrphans io scriptDir fs).copiedCount +
        (bootstrapOrphans io scriptDir fs).skippedCount ≤
      (fileMappings scriptDir).length := by
  have hlog : ∀ lvl, lvl ≠ Level.info → lvl ≠ Level.complete →
      countLevel lvl (bootstrapOrphans io scriptDir fs).log =
        countLevel lvl (firstStep io scriptDir fs).log +
          countLevel lvl (secondStep io scriptDir fs).log := by
    intro lvl h1 h2
    rw [bootstrapOrphans_eq]
    simp only
    rw [countLevel_append, countLevel_summary lvl _ _ h1 h2, countLevel_cons,
      countLevel_append]
    simp [openingLine, Ne.symm h1]
  obtain ⟨_, a2, a3, a4⟩ := stepOn_tally io (componentSamplesMapping (projectRoot scriptDir)) fs
  obtain ⟨_, b2, b3, b4⟩ := stepOn_tally io (samplesMapping (projectRoot scriptDir))
    (firstStep io scriptDir fs).fs
  have hc : (bootstrapOrphans io scriptDir fs).copiedCount =
      (firstStep io scriptDir fs).copiedCount + (secondStep io scriptDir fs).copiedCount := by
    rw [bootstrapOrphans_eq]
  have hs : (bootstrapOrphans io scriptDir fs).skippedCount =
      (firstStep io scriptDir fs).skippedCount + (secondStep io scriptDir fs).skippedCount := by
    rw [bootstrapOrphans_eq]
  have hfs : (bootstrapOrphans io scriptDir fs).fs = (secondStep io scriptDir fs).fs := by
    rw [bootstrapOrphans_eq]
  have hlen : (fileMappings scriptDir).length = 2 := by rw [fileMappings_eq]; rfl
  rw [hlog Level.warn (by decide) (by decide), hlog Level.error (by decide) (by decide),
    hlog Level.success (by decide) (by decide), hlog Level.debug (by decide) (by decide),
    hc, hs, hlen]
  change _ ∧ _ ∧ _ ∧ _ ∧ _ at *
  simp only [firstStep, secondStep] at *
  refine ⟨by omega, by omega, by omega, ?_, by omega⟩
  rw [fileMappings_eq, hfs]
  have e1 := stepOn_created io (componentSamplesMapping (projectRoot scriptDir)) fs
  have e2 := stepOn_created io (samplesMapping (projectRoot scriptDir))
    (stepOn io (componentSamplesMapping (projectRoot scriptDir)) fs).fs
  have u1 := stepOn_untouched io (samplesMapping (projectRoot scriptDir))
    (stepOn io (componentSamplesMapping (projectRoot scriptDir)) fs).fs
    (independent_second_first (projectRoot scriptDir)).2.1
  have u2 := stepOn_untouched io (componentSamplesMapping (projectRoot scriptDir)) fs
    (independent_first_second (projectRoot scriptDir)).2.1
  rw [u2] at e2
  rw [← u1] at e1
  rw [e1, e2]
  simp only [List.filter_cons, List.filter_nil]
  split <;> split <;> simp

theorem again_counts (io : Faults) (m : Mapping) (fs : FS) (log2 : List LogEntry)
    (h : log2 = if (stepOn io m fs).copiedCount = 1 then [skipLine m]
      else (stepOn io m fs).log) :
    countLevel Level.warn log2 = countLevel Level.warn (stepOn io m fs).log ∧
    countLevel Level.error log2 = countLevel Level.error (stepOn io m fs).log ∧
    countLevel Level.success log2 = 0 := by
  obtain ⟨_, t2, _, t4⟩ := stepOn_tally io m fs
  by_cases hc : (stepOn io m fs).copiedCount = 1
  · rw [if_pos hc] at h
    subst h
    have hw : countLevel Level.warn (stepOn io m fs).log = 0 := by omega
    have he : countLevel Level.error (stepOn io m fs).log = 0 := by omega
    rw [hw, he]
    simp [countLevel, skipLine]
  · rw [if_neg hc] at h
    subst h
    refine ⟨rfl, rfl, ?_⟩
    omega

/-- C6 as stated fails: with the second orphan file missing, the second of two runs
in a row counts one entry as skipped, not both, and warns again about the missing
source: that entry does not resolve to skipped-exists. -/
theorem second_run_not_all_skipped :
    (bootstrapOrphans noFaults ["platform", "lib"]
      (bootstrapOrphans noFaults ["platform", "lib"] scenarioProject).fs).log =
      [openingLine, skipLine (componentSamplesMapping []),
        ⟨Level.warn, "Orphan file not found: samples.json"⟩,
        ⟨Level.info, "Skipped 1 existing file(s)"⟩] ∧
    (bootstrapOrphans noFaults ["platform", "lib"]
      (bootstrapOrphans noFaults ["platform", "lib"] scenarioProject).fs).skippedCount ≠
      (fileMappings ["platform", "lib"]).length := by
  decide

/-- C6, as the code has it: a second run of `bootstrapOrphans` on the file system the
first run left, in the same environment, copies nothing and leaves the file system as
it is; it skips exactly the entries the first run copied or skipped, and repeats the
missing-source warnings and the failures of the first run. -/
theorem second_run_copies_nothing (io : Faults) (scriptDir : PathName) (fs : FS) :
    (bootstrapOrphans io scriptDir (bootstrapOrphans io scriptDir fs).fs).copiedCount = 0 ∧
    (bootstrapOrphans io scriptDir (bootstrapOrphans io scriptDir fs).fs).fs =
      (bootstrapOrphans io scriptDir fs).fs ∧
    (bootstrapOrphans io scriptDir (bootstrapOrphans io scriptDir fs).fs).skippedCount =
      (bootstrapOrphans io scriptDir fs).copiedCount +
        (bootstrapOrphans io scriptDir fs).skippedCount ∧
    countLevel Level.success
      (bootstrapOrphans io scriptDir (bootstrapOrphans io scriptDir fs).fs).log = 0 ∧
    countLevel Level.warn
      (bootstrapOrphans io scriptDir (bootstrapOrphans io scriptDir fs).fs).log =
      countLevel Level.warn (bootstrapOrphans io scriptDir fs).log ∧
    countLevel Level.error
      (bootstrapOrphans io scriptDir (bootstrapOrphans io scriptDir fs).fs).log =
      countLevel Level.error (bootstrapOrphans io scriptDir fs).log := by
  have hlog : ∀ (g : FS) lvl, lvl ≠ Level.info → lvl ≠ Level.complete →
      countLevel lvl (bootstrapOrphans io scriptDir g).log =
        countLevel lvl (firstStep io scriptDir g).log +
          countLevel lvl (secondStep io scriptDir g).log := by
    intro g lvl h1 h2
    rw [bootstrapOrphans_eq]
    simp only
    rw [countLevel_append, countLevel_summary lvl _ _ h1 h2, countLevel_cons,
      countLevel_append]
    simp [openingLine, Ne.symm h1]
  have hfs : (bootstrapOrphans io scriptDir fs).fs = (secondStep io scriptDir fs).fs := by
    rw [bootstrapOrphans_eq]
  have hA : Agree (componentSamplesMapping (projectRoot scriptDir))
      (firstStep io scriptDir fs).fs (secondStep io scriptDir fs).fs :=
    agree_after io (independent_second_first (projectRoot scriptDir)) _
  obtain ⟨p1, p2, p3, p4⟩ := stepOn_again io (componentSamplesMapping (projectRoot scriptDir))
    (componentSamples_dest_ne _) fs _ hA
  have hF2 : (firstStep io scriptDir (secondStep io scriptDir fs).fs).fs =
      (secondStep io scriptDir fs).fs := p1
  obtain ⟨q1, q2, q3, q4⟩ := stepOn_again io (samplesMapping (projectRoot scriptDir))
    (samples_dest_ne _) (firstStep io scriptDir fs).fs _
    (agree_refl _ (secondStep io scriptDir fs).fs)
  have hS2 : secondStep io scriptDir (secondStep io scriptDir fs).fs =
      stepOn io (samplesMapping (projectRoot scriptDir)) (secondStep io scriptDir fs).fs := by
    unfold secondStep at hF2 ⊢
    rw [hF2]
  obtain ⟨a1, a2, a3⟩ := again_counts io _ fs _ p4
  obtain ⟨b1, b2, b3⟩ := again_counts io _ (firstStep io scriptDir fs).fs _ q4
  rw [hlog _ Level.success (by decide) (by decide), hlog _ Level.warn (by decide) (by decide),
    hlog _ Level.error (by decide) (by decide), hlog _ Level.warn (by decide) (by decide),
    hlog _ Level.error (by decide) (by decide)]
  rw [hfs]
  rw [bootstrapOrphans_eq io scriptDir (secondStep io scriptDir fs).fs,
    bootstrapOrphans_eq io scriptDir fs]
  simp only [hS2]
  simp only [firstStep, secondStep] at *
  refine ⟨by omega, q1, by omega, by omega, by omega, by omega⟩

/-- C7: when `mkdirSync` or `copyFileSync` throws for the `i`-th mapping (its source
being there and its destination not), the iteration logs one error line with the
description of the mapping and the message thrown, and moves no counter; the run goes
on, and what it logs for the other mapping, its summary, its counters and what it
leaves at the other destination are those of a run on the list without the failing
mapping. -/
theorem failure_is_isolated (io : Faults) (scriptDir : PathName) (fs : FS) (i : Nat)
    (m : Mapping) (msg : String) (hm : (fileMappings scriptDir)[i]? = some m)
    (hs : existsSync io (stateBefore io (fileMappings scriptDir) fs i).fs m.src = true)
    (hd : existsSync io (stateBefore io (fileMappings scriptDir) fs i).fs m.dest = false)
    (hfail : (copyStep io m (stateBefore io (fileMappings scriptDir) fs i).fs).2
      = some msg) :
    (stateBefore io (fileMappings scriptDir) fs (i + 1)).log =
      (stateBefore io (fileMappings scriptDir) fs i).log ++
        [⟨Level.error, failText m msg⟩] ∧
    (stateBefore io (fileMappings scriptDir) fs (i + 1)).copiedCount =
      (stateBefore io (fileMappings scriptDir) fs i).copiedCount ∧
    (stateBefore io (fileMappings scriptDir) fs (i + 1)).skippedCount =
      (stateBefore io (fileMappings scriptDir) fs i).skippedCount ∧
    (bootstrapOrphans io scriptDir fs).log[i + 1]? =
      some ⟨Level.error, failText m msg⟩ ∧
    (bootstrapWith io ((fileMappings scriptDir).eraseIdx i) fs).log =
      (bootstrapOrphans io scriptDir fs).log.eraseIdx (i + 1) ∧
    (bootstrapWith io ((fileMappings scriptDir).eraseIdx i) fs).copiedCount =
      (bootstrapOrphans io scriptDir fs).copiedCount ∧
    (bootstrapWith io ((fileMappings scriptDir).eraseIdx i) fs).skippedCount =
      (bootstrapOrphans io scriptDir fs).skippedCount ∧
    ∀ m' ∈ (fileMappings scriptDir).eraseIdx i,
      (bootstrapWith io ((fileMappings scriptDir).eraseIdx i) fs).fs m'.dest =
        (bootstrapOrphans io scriptDir fs).fs m'.dest := by
  have hstep : stateBefore io (fileMappings scriptDir) fs (i + 1) = _ :=
    (stateBefore_succ io _ fs hm).trans (processMapping_eq io m _)
  rw [stepOn_failed hs hd hfail] at hstep
  refine ⟨by rw [hstep], by rw [hstep]; rfl, by rw [hstep]; rfl, ?_⟩
  rcases fileMappings_index hm with ⟨rfl, rfl⟩ | ⟨rfl, rfl⟩
  · -- the first mapping fails
    rw [stateBefore_zero] at hs hd hfail
    simp only [startState] at hs hd hfail
    have hF : firstStep io scriptDir fs = _ := stepOn_failed hs hd hfail
    obtain ⟨c1, c2, c3, c4⟩ := stepOn_congr io (samplesMapping (projectRoot scriptDir))
      (agree_after io (independent_first_second (projectRoot scriptDir)) fs)
    have hrest : bootstrapWith io ((fileMappings scriptDir).eraseIdx 0) fs =
        bootstrapWith io [samplesMapping (projectRoot scriptDir)] fs := by
      rw [fileMappings_eq]; rfl
    rw [hrest, bootstrapOrphans_eq]
    simp only [bootstrapWith, processAll, List.foldl]
    rw [processMapping_eq]
    simp only [secondStep, firstStep] at *
    rw [hF] at c1 c2 c3 c4 ⊢
    simp only [startState] at *
    rw [c1, c2, c3]
    refine ⟨by simp, by simp [openingLine], by simp, by simp, ?_⟩
    intro m' hm'
    rw [fileMappings_eq] at hm'
    simp at hm'
    subst hm'
    exact c4.symm
  · -- the second mapping fails
    rw [stateBefore_one] at hs hd hfail
    simp only at hs hd hfail
    have hS : secondStep io scriptDir fs = _ := stepOn_failed hs hd hfail
    obtain ⟨t1, _⟩ := stepOn_tally io (componentSamplesMapping (projectRoot scriptDir)) fs
    obtain ⟨e, he⟩ := List.length_eq_one.mp t1
    have hrest : bootstrapWith io ((fileMappings scriptDir).eraseIdx 1) fs =
        bootstrapWith io [componentSamplesMapping (projectRoot scriptDir)] fs := by
      rw [fileMappings_eq]; rfl
    rw [hrest, bootstrapOrphans_eq]
    simp only [bootstrapWith, processAll, List.foldl]
    rw [processMapping_eq]
    rw [hS]
    simp only [firstStep, startState] at *
    rw [he]
    refine ⟨by simp, by simp [openingLine], by simp, by simp, ?_⟩
    intro m' hm'
    rw [fileMappings_eq] at hm'
    simp at hm'
    subst hm'
    have := stepOn_untouched io (samplesMapping (projectRoot scriptDir))
      (stepOn io (componentSamplesMapping (projectRoot scriptDir)) fs).fs
      (independent_second_first (projectRoot scriptDir)).2.1
    simp only [secondStep, firstStep] at hS
    rw [hS] at this
    exact this.symm

theorem failure_is_isolated_witness :
    (fileMappings ["platform", "lib"])[0]? = some (componentSamplesMapping []) ∧
    (bootstrapOrphans readOnlyPages ["platform", "lib"] freshProject).log =
      [openingLine,
        ⟨Level.error,
          "Failed to copy Component samples mapping: EACCES: permission denied, mkdir"⟩,
        ⟨Level.success, "Copied Samples metadata"⟩,
        ⟨Level.complete, "Bootstrapped 1 orphan file(s)"⟩] ∧
    (bootstrapWith readOnlyPages ((fileMappings ["platform", "lib"]).eraseIdx 0)
      freshProject).log =
      (bootstrapOrphans readOnlyPages ["platform", "lib"] freshProject).log.eraseIdx 1 :=
  ⟨by decide, by decide,
    (failure_is_isolated readOnlyPages ["platform", "lib"] freshProject 0
      (componentSamplesMapping []) "EACCES: permission denied, mkdir"
      (by decide) (by decide) (by decide) (by decide)).2.2.2.2.1⟩

end AmpDev
